import Mathlib

/-!
Verification development for the go-astits MPEG-TS demultiplexer core
(PSI section engine, CRC32, descriptor engine, serialisation, demuxer loop).

Go byte slices are modelled as `List Nat` whose elements are below 256;
uint32/uint16/uint8 arithmetic is `Nat` arithmetic with explicit `% 2^w`
where Go wraps.  Fallible Go functions returning `(v, err)` are modelled as
`Except Err (v × Nat)` where the second component is the iterator offset.
Go loops are modelled with an explicit fuel parameter: running out of fuel
is the dedicated error `Err.fuelExhausted` (the corresponding Go loop would
diverge or keep spinning), and all theorems quantify over the fuel.
-/

namespace Astits

/-- Errors of the model.  Go reports errors as wrapped strings; the claims only
distinguish the CRC32 mismatch, room exhaustion in serialisation buffers and
the end of the input bytes, so those become constructors. -/
inductive Err where
  /-- astikit: ErrNoBytesLeft, raised by the bytes iterator. -/
  | noBytesLeft : Err
  /-- astits: Table CRC32 x != computed CRC32 y (stored, computed). -/
  | crc32Mismatch (stored computed : Nat) : Err
  /-- astits: ErrNoRoomInBuffer. -/
  | noRoomInBuffer : Err
  /-- astits: Error pointer field muxing unimplemented. -/
  | pointerFieldUnimplemented : Err
  /-- Model-only: a Go loop ran out of fuel. -/
  | fuelExhausted : Err
  /-- Model-only: a Go slice write out of range (a panic in Go). -/
  | indexOutOfRange : Err
  deriving DecidableEq, Repr

/-- Decidable equality of model results, used by concrete witnesses. -/
instance {e a : Type} [DecidableEq e] [DecidableEq a] : DecidableEq (Except e a) :=
  fun x y =>
    match x, y with
    | .ok u, .ok v =>
      if h : u = v then .isTrue (by rw [h]) else .isFalse (by simp [h])
    | .error u, .error v =>
      if h : u = v then .isTrue (by rw [h]) else .isFalse (by simp [h])
    | .ok _, .error _ => .isFalse (by simp)
    | .error _, .ok _ => .isFalse (by simp)

/-! ### Bytes iterator

Models the external `astikit.BytesIterator`: a byte slice plus an offset.
The slice is never mutated by the parsers, so the functions below take the
bytes `bs` as a read-only argument and thread only the offset. -/

/-- astikit BytesIterator.NextByte: return the byte at the offset and advance. -/
def nextByte (bs : List Nat) (off : Nat) : Except Err (Nat × Nat) :=
  if h : off < bs.length then .ok (bs.get ⟨off, h⟩, off + 1) else .error .noBytesLeft

/-- astikit BytesIterator.NextBytes: return the `n` bytes at the offset and advance. -/
def nextBytes (bs : List Nat) (n off : Nat) : Except Err (List Nat × Nat) :=
  if off + n ≤ bs.length then .ok ((bs.drop off).take n, off + n) else .error .noBytesLeft

/-- astikit BytesIterator.HasBytesLeft. -/
def hasBytesLeft (bs : List Nat) (off : Nat) : Bool := off < bs.length

/-! ### CRC32 (src/data_psi.go computeCRC32) -/

/-- One bit step of computeCRC32: the body of the inner `for i := 0; i < 8` loop.
`o` is the running uint32 register, `b` the current uint8 byte. -/
def crc32Bit (p : Nat × Nat) : Nat × Nat :=
  let o := p.1
  let b := p.2
  ((if (decide (0x80000000 ≤ o)) != (decide (0x80 ≤ b)) then
      ((o <<< 1) % 4294967296) ^^^ 0x04C11DB7
    else
      (o <<< 1) % 4294967296),
   (b <<< 1) % 256)

/-- `n` iterations of the bit step. -/
def crc32Bits : Nat → Nat × Nat → Nat × Nat
  | 0, p => p
  | n + 1, p => crc32Bits n (crc32Bit p)

/-- src/data_psi.go computeCRC32.  The Go function also returns an error which
is always nil, so the model is pure. -/
def computeCRC32 (bs : List Nat) : Nat :=
  bs.foldl (fun o b => (crc32Bits 8 (o, b)).1) 0xffffffff

/-- Modelled from the spec: one bit step of the MPEG-2 CRC32 reference
algorithm.  "if the top bit of the running register differs from the top bit
of the current byte, shift left and XOR the polynomial; otherwise shift left
only; then shift the byte left by one", on a 32-bit register and an 8-bit
byte, polynomial 0x04C11DB7. -/
def crc32RefBit (p : Nat × Nat) : Nat × Nat :=
  let r := p.1
  let b := p.2
  (if r.testBit 31 != b.testBit 7 then ((2 * r) % 2 ^ 32) ^^^ 0x04C11DB7
   else (2 * r) % 2 ^ 32,
   (2 * b) % 2 ^ 8)

/-- `n` iterations of the reference bit step. -/
def crc32RefBits : Nat → Nat × Nat → Nat × Nat
  | 0, p => p
  | n + 1, p => crc32RefBits n (crc32RefBit p)

/-- Modelled from the spec: the MPEG-2 CRC32 reference algorithm.  Initial
value 0xFFFFFFFF, each input byte processed MSB-first for 8 bits, no
reflection, no final XOR. -/
def crc32Reference (bs : List Nat) : Nat :=
  bs.foldl (fun r b => (crc32RefBits 8 (r, b)).1) 0xffffffff

/-! ### Table types (src/data_psi.go psiTableType) -/

/-- The PSI table type string constants of src/data_psi.go as an enumeration. -/
inductive PSITableType where
  | BAT | DIT | EIT | NIT | Null | PAT | PMT | RST | SDT | SIT | ST | TDT | TOT | Unknown
  deriving DecidableEq, Repr

/-- src/data_psi.go psiTableType: table type from table ID (switch with the
cases in source order). -/
def psiTableType (tableID : Nat) : PSITableType :=
  if tableID = 0x4a then .BAT
  else if 0x4e ≤ tableID ∧ tableID ≤ 0x6f then .EIT
  else if tableID = 0x7e then .DIT
  else if tableID = 0x40 ∨ tableID = 0x41 then .NIT
  else if tableID = 0xff then .Null
  else if tableID = 0 then .PAT
  else if tableID = 2 then .PMT
  else if tableID = 0x71 then .RST
  else if tableID = 0x42 ∨ tableID = 0x46 then .SDT
  else if tableID = 0x7f then .SIT
  else if tableID = 0x72 then .ST
  else if tableID = 0x70 then .TDT
  else if tableID = 0x73 then .TOT
  else .Unknown

/-- Modelled from the spec: the normative table-ID to table-type map, written
directly from the classification table (0x00 PAT, 0x02 PMT, 0x40-0x41 NIT,
0x42 and 0x46 SDT, 0x4A BAT, 0x4E-0x6F EIT, 0x70 TDT, 0x71 RST, 0x72 ST,
0x73 TOT, 0x7E DIT, 0x7F SIT, 0xFF Null, other Unknown). -/
def psiTableTypeNormative (n : Nat) : PSITableType :=
  if n = 0x00 then .PAT
  else if n = 0x02 then .PMT
  else if 0x40 ≤ n ∧ n ≤ 0x41 then .NIT
  else if n = 0x42 ∨ n = 0x46 then .SDT
  else if n = 0x4a then .BAT
  else if 0x4e ≤ n ∧ n ≤ 0x6f then .EIT
  else if n = 0x70 then .TDT
  else if n = 0x71 then .RST
  else if n = 0x72 then .ST
  else if n = 0x73 then .TOT
  else if n = 0x7e then .DIT
  else if n = 0x7f then .SIT
  else if n = 0xff then .Null
  else .Unknown

/-- src/data_psi.go shouldStopPSIParsing. -/
def shouldStopPSIParsing (tableType : PSITableType) : Bool :=
  tableType = PSITableType.Null ∨ tableType = PSITableType.Unknown

/-- src/data_psi.go hasCRC32. -/
def hasCRC32 (tableType : PSITableType) : Bool :=
  tableType = PSITableType.PAT ∨ tableType = PSITableType.PMT ∨
  tableType = PSITableType.EIT ∨ tableType = PSITableType.NIT ∨
  tableType = PSITableType.TOT ∨ tableType = PSITableType.SDT

/-- src/data_psi.go hasPSISyntaxHeader. -/
def hasPSISyntaxHeader (tableType : PSITableType) : Bool :=
  tableType = PSITableType.EIT ∨ tableType = PSITableType.NIT ∨
  tableType = PSITableType.PAT ∨ tableType = PSITableType.PMT ∨
  tableType = PSITableType.SDT

/-- src/data_psi.go parseCRC32: 4 bytes, big endian. -/
def parseCRC32 (bs : List Nat) (off : Nat) : Except Err (Nat × Nat) := do
  let (cs, off) ← nextBytes bs 4 off
  pure ((cs.getD 0 0) <<< 24 ||| (cs.getD 1 0) <<< 16 ||| (cs.getD 2 0) <<< 8 ||| cs.getD 3 0, off)

/-! ### DVB time helpers

`parseDVBTime` and `parseDVBDurationMinutes` live in a repository file that is
not part of src/ (only their callers are), so they are modelled from the spec. -/

/-- One BCD byte decoded to its two-digit value. -/
def bcdDecode (b : Nat) : Nat := (b >>> 4) * 10 + (b &&& 0xf)

/-- A DVB date-time (spec model of the Go time.Time value). -/
structure DVBTime where
  Year : Int
  Month : Int
  Day : Int
  Hour : Nat
  Minute : Nat
  Second : Nat
  deriving DecidableEq, Repr

/-- Modelled from the spec: "DVB date-time is 5 bytes: 16-bit MJD + 3 BCD bytes
(HH, MM, SS)", converted to Gregorian with the spec's MJD formulas (fractions
carried out in exact integer arithmetic with floor division). -/
def parseDVBTime (bs : List Nat) (off : Nat) : Except Err (DVBTime × Nat) := do
  let (cs, off) ← nextBytes bs 5 off
  let mjd : Int := Int.ofNat ((cs.getD 0 0) <<< 8 ||| cs.getD 1 0)
  let yp : Int := (20 * mjd - 301564).fdiv 7305
  let lp : Int := (yp * 36525).fdiv 100
  let mp : Int := (10000 * (mjd - 14956 - lp) - 1000).fdiv 306001
  let dayD : Int := mjd - 14956 - lp - (mp * 306001).fdiv 10000
  let k : Int := if mp = 14 ∨ mp = 15 then 1 else 0
  pure ({ Year := 1900 + yp + k, Month := mp - 1 - k * 12, Day := dayD,
          Hour := bcdDecode (cs.getD 2 0), Minute := bcdDecode (cs.getD 3 0),
          Second := bcdDecode (cs.getD 4 0) }, off)

/-- Modelled from the spec: "Duration minutes is 2 BCD bytes" (HH MM),
returned as a total number of minutes. -/
def parseDVBDurationMinutes (bs : List Nat) (off : Nat) : Except Err (Nat × Nat) := do
  let (cs, off) ← nextBytes bs 2 off
  pure (bcdDecode (cs.getD 0 0) * 60 + bcdDecode (cs.getD 1 0), off)

/-- Modelled from the spec: "Duration (HHMMSS) is 3 BCD bytes", returned as a
total number of seconds. -/
def parseDVBDurationSeconds (bs : List Nat) (off : Nat) : Except Err (Nat × Nat) := do
  let (cs, off) ← nextBytes bs 3 off
  pure (bcdDecode (cs.getD 0 0) * 3600 + bcdDecode (cs.getD 1 0) * 60 +
        bcdDecode (cs.getD 2 0), off)

/-! ### Descriptor variants (src/descriptor.go) -/

/-- src/descriptor.go DescriptorAC3. -/
structure DescriptorAC3 where
  AdditionalInfo : List Nat := []
  ASVC : Nat := 0
  BSID : Nat := 0
  ComponentType : Nat := 0
  HasASVC : Bool := false
  HasBSID : Bool := false
  HasComponentType : Bool := false
  HasMainID : Bool := false
  MainID : Nat := 0
  deriving DecidableEq, Repr

/-- src/descriptor.go newDescriptorAC3. -/
def newDescriptorAC3 (bs : List Nat) (offsetEnd off : Nat) :
    Except Err (DescriptorAC3 × Nat) := do
  let (b, off) ← nextByte bs off
  let d : DescriptorAC3 :=
    { HasASVC := (b &&& 0x10) != 0, HasBSID := (b &&& 0x40) != 0,
      HasComponentType := (b &&& 0x80) != 0, HasMainID := (b &&& 0x20) != 0 }
  let (d, off) ← if d.HasComponentType then do
      let (b, off) ← nextByte bs off
      pure ({ d with ComponentType := b }, off)
    else pure (d, off)
  let (d, off) ← if d.HasBSID then do
      let (b, off) ← nextByte bs off
      pure ({ d with BSID := b }, off)
    else pure (d, off)
  let (d, off) ← if d.HasMainID then do
      let (b, off) ← nextByte bs off
      pure ({ d with MainID := b }, off)
    else pure (d, off)
  let (d, off) ← if d.HasASVC then do
      let (b, off) ← nextByte bs off
      pure ({ d with ASVC := b }, off)
    else pure (d, off)
  if off < offsetEnd then do
    let (cs, off) ← nextBytes bs (offsetEnd - off) off
    pure ({ d with AdditionalInfo := cs }, off)
  else pure (d, off)

/-- src/descriptor.go DescriptorAVCVideo. -/
structure DescriptorAVCVideo where
  AVC24HourPictureFlag : Bool := false
  AVCStillPresent : Bool := false
  CompatibleFlags : Nat := 0
  ConstraintSet0Flag : Bool := false
  ConstraintSet1Flag : Bool := false
  ConstraintSet2Flag : Bool := false
  LevelIDC : Nat := 0
  ProfileIDC : Nat := 0
  deriving DecidableEq, Repr

/-- src/descriptor.go newDescriptorAVCVideo. -/
def newDescriptorAVCVideo (bs : List Nat) (off : Nat) :
    Except Err (DescriptorAVCVideo × Nat) := do
  let (b, off) ← nextByte bs off
  let profileIDC := b
  let (b, off) ← nextByte bs off
  let cs0 := (b &&& 0x80) != 0
  let cs1 := (b &&& 0x40) != 0
  let cs2 := (b &&& 0x20) != 0
  let compat := b &&& 0x1f
  let (b, off) ← nextByte bs off
  let levelIDC := b
  let (b, off) ← nextByte bs off
  pure ({ ProfileIDC := profileIDC, ConstraintSet0Flag := cs0, ConstraintSet1Flag := cs1,
          ConstraintSet2Flag := cs2, CompatibleFlags := compat, LevelIDC := levelIDC,
          AVCStillPresent := (b &&& 0x80) != 0,
          AVC24HourPictureFlag := (b &&& 0x40) != 0 }, off)

/-- src/descriptor.go DescriptorComponent. -/
structure DescriptorComponent where
  ComponentTag : Nat := 0
  ComponentType : Nat := 0
  ISO639LanguageCode : List Nat := []
  StreamContent : Nat := 0
  StreamContentExt : Nat := 0
  Text : List Nat := []
  deriving DecidableEq, Repr

/-- src/descriptor.go newDescriptorComponent. -/
def newDescriptorComponent (bs : List Nat) (offsetEnd off : Nat) :
    Except Err (DescriptorComponent × Nat) := do
  let (b, off) ← nextByte bs off
  let d : DescriptorComponent := { StreamContentExt := b >>> 4, StreamContent := b &&& 0xf }
  let (b, off) ← nextByte bs off
  let d := { d with ComponentType := b }
  let (b, off) ← nextByte bs off
  let d := { d with ComponentTag := b }
  let (cs, off) ← nextBytes bs 3 off
  let d := { d with ISO639LanguageCode := cs }
  if off < offsetEnd then do
    let (cs, off) ← nextBytes bs (offsetEnd - off) off
    pure ({ d with Text := cs }, off)
  else pure (d, off)

/-- src/descriptor.go DescriptorContentItem. -/
structure DescriptorContentItem where
  ContentNibbleLevel1 : Nat
  ContentNibbleLevel2 : Nat
  UserByte : Nat
  deriving DecidableEq, Repr

/-- src/descriptor.go DescriptorContent. -/
structure DescriptorContent where
  Items : List DescriptorContentItem
  deriving DecidableEq, Repr

/-- The item loop of src/descriptor.go newDescriptorContent. -/
def newDescriptorContentLoop (bs : List Nat) :
    Nat → Nat → Nat → List DescriptorContentItem →
    Except Err (List DescriptorContentItem × Nat)
  | 0, _, _, _ => .error .fuelExhausted
  | fuel + 1, offsetEnd, off, acc =>
    if off < offsetEnd then do
      let (cs, off) ← nextBytes bs 2 off
      newDescriptorContentLoop bs fuel offsetEnd off
        (acc ++ [{ ContentNibbleLevel1 := (cs.getD 0 0) >>> 4,
                   ContentNibbleLevel2 := (cs.getD 0 0) &&& 0xf,
                   UserByte := cs.getD 1 0 }])
    else pure (acc, off)

/-- src/descriptor.go newDescriptorContent. -/
def newDescriptorContent (bs : List Nat) (fuel offsetEnd off : Nat) :
    Except Err (DescriptorContent × Nat) := do
  let (items, off) ← newDescriptorContentLoop bs fuel offsetEnd off []
  pure ({ Items := items }, off)

/-- src/descriptor.go DescriptorDataStreamAlignment. -/
structure DescriptorDataStreamAlignment where
  Typ : Nat -- Go field Type (Type is a Lean keyword)
  deriving DecidableEq, Repr

/-- src/descriptor.go newDescriptorDataStreamAlignment. -/
def newDescriptorDataStreamAlignment (bs : List Nat) (off : Nat) :
    Except Err (DescriptorDataStreamAlignment × Nat) := do
  let (b, off) ← nextByte bs off
  pure ({ Typ := b }, off)

/-- src/descriptor.go DescriptorEnhancedAC3. -/
structure DescriptorEnhancedAC3 where
  AdditionalInfo : List Nat := []
  ASVC : Nat := 0
  BSID : Nat := 0
  ComponentType : Nat := 0
  HasASVC : Bool := false
  HasBSID : Bool := false
  HasComponentType : Bool := false
  HasMainID : Bool := false
  HasSubStream1 : Bool := false
  HasSubStream2 : Bool := false
  HasSubStream3 : Bool := false
  MainID : Nat := 0
  MixInfoExists : Bool := false
  SubStream1 : Nat := 0
  SubStream2 : Nat := 0
  SubStream3 : Nat := 0
  deriving DecidableEq, Repr

/-- src/descriptor.go newDescriptorEnhancedAC3. -/
def newDescriptorEnhancedAC3 (bs : List Nat) (offsetEnd off : Nat) :
    Except Err (DescriptorEnhancedAC3 × Nat) := do
  let (b, off) ← nextByte bs off
  let d : DescriptorEnhancedAC3 :=
    { HasASVC := (b &&& 0x10) != 0, HasBSID := (b &&& 0x40) != 0,
      HasComponentType := (b &&& 0x80) != 0, HasMainID := (b &&& 0x20) != 0,
      HasSubStream1 := (b &&& 0x4) != 0, HasSubStream2 := (b &&& 0x2) != 0,
      HasSubStream3 := (b &&& 0x1) != 0, MixInfoExists := (b &&& 0x8) != 0 }
  let (d, off) ← if d.HasComponentType then do
      let (b, off) ← nextByte bs off
      pure ({ d with ComponentType := b }, off)
    else pure (d, off)
  let (d, off) ← if d.HasBSID then do
      let (b, off) ← nextByte bs off
      pure ({ d with BSID := b }, off)
    else pure (d, off)
  let (d, off) ← if d.HasMainID then do
      let (b, off) ← nextByte bs off
      pure ({ d with MainID := b }, off)
    else pure (d, off)
  let (d, off) ← if d.HasASVC then do
      let (b, off) ← nextByte bs off
      pure ({ d with ASVC := b }, off)
    else pure (d, off)
  let (d, off) ← if d.HasSubStream1 then do
      let (b, off) ← nextByte bs off
      pure ({ d with SubStream1 := b }, off)
    else pure (d, off)
  let (d, off) ← if d.HasSubStream2 then do
      let (b, off) ← nextByte bs off
      pure ({ d with SubStream2 := b }, off)
    else pure (d, off)
  let (d, off) ← if d.HasSubStream3 then do
      let (b, off) ← nextByte bs off
      pure ({ d with SubStream3 := b }, off)
    else pure (d, off)
  if off < offsetEnd then do
    let (cs, off) ← nextBytes bs (offsetEnd - off) off
    pure ({ d with AdditionalInfo := cs }, off)
  else pure (d, off)

/-- src/descriptor.go DescriptorExtendedEventItem. -/
structure DescriptorExtendedEventItem where
  Content : List Nat := []
  Description : List Nat := []
  deriving DecidableEq, Repr

/-- src/descriptor.go DescriptorExtendedEvent. -/
structure DescriptorExtendedEvent where
  ISO639LanguageCode : List Nat := []
  Items : List DescriptorExtendedEventItem := []
  LastDescriptorNumber : Nat := 0
  Number : Nat := 0
  Text : List Nat := []
  deriving DecidableEq, Repr

/-- src/descriptor.go newDescriptorExtendedEventItem. -/
def newDescriptorExtendedEventItem (bs : List Nat) (off : Nat) :
    Except Err (DescriptorExtendedEventItem × Nat) := do
  let (b, off) ← nextByte bs off
  let (descr, off) ← nextBytes bs b off
  let (b, off) ← nextByte bs off
  let (content, off) ← nextBytes bs b off
  pure ({ Content := content, Description := descr }, off)

/-- The item loop of src/descriptor.go newDescriptorExtendedEvent. -/
def newDescriptorExtendedEventLoop (bs : List Nat) :
    Nat → Nat → Nat → List DescriptorExtendedEventItem →
    Except Err (List DescriptorExtendedEventItem × Nat)
  | 0, _, _, _ => .error .fuelExhausted
  | fuel + 1, offsetEnd, off, acc =>
    if off < offsetEnd then do
      let (item, off) ← newDescriptorExtendedEventItem bs off
      newDescriptorExtendedEventLoop bs fuel offsetEnd off (acc ++ [item])
    else pure (acc, off)

/-- src/descriptor.go newDescriptorExtendedEvent. -/
def newDescriptorExtendedEvent (bs : List Nat) (fuel off : Nat) :
    Except Err (DescriptorExtendedEvent × Nat) := do
  let (b, off) ← nextByte bs off
  let d : DescriptorExtendedEvent := { Number := b >>> 4, LastDescriptorNumber := b &&& 0xf }
  let (cs, off) ← nextBytes bs 3 off
  let d := { d with ISO639LanguageCode := cs }
  let (b, off) ← nextByte bs off
  let (items, off) ← newDescriptorExtendedEventLoop bs fuel (off + b) off []
  let d := { d with Items := items }
  let (b, off) ← nextByte bs off
  let (text, off) ← nextBytes bs b off
  pure ({ d with Text := text }, off)

/-- src/descriptor.go DescriptorExtensionSupplementaryAudio. -/
structure DescriptorExtensionSupplementaryAudio where
  EditorialClassification : Nat := 0
  HasLanguageCode : Bool := false
  LanguageCode : List Nat := []
  MixType : Bool := false
  PrivateData : List Nat := []
  deriving DecidableEq, Repr

/-- src/descriptor.go newDescriptorExtensionSupplementaryAudio. -/
def newDescriptorExtensionSupplementaryAudio (bs : List Nat) (offsetEnd off : Nat) :
    Except Err (DescriptorExtensionSupplementaryAudio × Nat) := do
  let (b, off) ← nextByte bs off
  let d : DescriptorExtensionSupplementaryAudio :=
    { EditorialClassification := (b >>> 2) &&& 0x1f,
      HasLanguageCode := (b &&& 0x1) != 0, MixType := (b &&& 0x80) != 0 }
  let (d, off) ← if d.HasLanguageCode then do
      let (cs, off) ← nextBytes bs 3 off
      pure ({ d with LanguageCode := cs }, off)
    else pure (d, off)
  if off < offsetEnd then do
    let (cs, off) ← nextBytes bs (offsetEnd - off) off
    pure ({ d with PrivateData := cs }, off)
  else pure (d, off)

/-- src/descriptor.go DescriptorExtension. -/
structure DescriptorExtension where
  SupplementaryAudio : Option DescriptorExtensionSupplementaryAudio := none
  Tag : Nat := 0
  Unknown : Option (List Nat) := none
  deriving DecidableEq, Repr

/-- src/descriptor.go DescriptorTagExtensionSupplementaryAudio. -/
def DescriptorTagExtensionSupplementaryAudio : Nat := 0x6

/-- src/descriptor.go newDescriptorExtension. -/
def newDescriptorExtension (bs : List Nat) (offsetEnd off : Nat) :
    Except Err (DescriptorExtension × Nat) := do
  let (b, off) ← nextByte bs off
  let d : DescriptorExtension := { Tag := b }
  if d.Tag = DescriptorTagExtensionSupplementaryAudio then do
    let (sa, off) ← newDescriptorExtensionSupplementaryAudio bs offsetEnd off
    pure ({ d with SupplementaryAudio := some sa }, off)
  else do
    let (cs, off) ← nextBytes bs (offsetEnd - off) off
    pure ({ d with Unknown := some cs }, off)

/-- src/descriptor.go DescriptorISO639LanguageAndAudioType. -/
structure DescriptorISO639LanguageAndAudioType where
  Language : List Nat := []
  Typ : Nat := 0 -- Go field Type (Type is a Lean keyword)
  deriving DecidableEq, Repr

/-- src/descriptor.go newDescriptorISO639LanguageAndAudioType: reads all bytes
up to the descriptor end; the last byte is the audio type and the preceding
bytes are the (possibly short) language. -/
def newDescriptorISO639LanguageAndAudioType (bs : List Nat) (offsetEnd off : Nat) :
    Except Err (DescriptorISO639LanguageAndAudioType × Nat) := do
  let (cs, off) ← nextBytes bs (offsetEnd - off) off
  pure ({ Language := cs.take (cs.length - 1), Typ := cs.getLastD 0 }, off)

/-- src/descriptor.go DescriptorLocalTimeOffsetItem; durations are carried in
minutes and the time of change as a `DVBTime`. -/
structure DescriptorLocalTimeOffsetItem where
  CountryCode : List Nat := []
  CountryRegionID : Nat := 0
  LocalTimeOffset : Nat := 0
  LocalTimeOffsetPolarity : Bool := false
  NextTimeOffset : Nat := 0
  TimeOfChange : Option DVBTime := none
  deriving DecidableEq, Repr

/-- src/descriptor.go DescriptorLocalTimeOffset. -/
structure DescriptorLocalTimeOffset where
  Items : List DescriptorLocalTimeOffsetItem
  deriving DecidableEq, Repr

/-- The item loop of src/descriptor.go newDescriptorLocalTimeOffset. -/
def newDescriptorLocalTimeOffsetLoop (bs : List Nat) :
    Nat → Nat → Nat → List DescriptorLocalTimeOffsetItem →
    Except Err (List DescriptorLocalTimeOffsetItem × Nat)
  | 0, _, _, _ => .error .fuelExhausted
  | fuel + 1, offsetEnd, off, acc =>
    if off < offsetEnd then do
      let (cc, off) ← nextBytes bs 3 off
      let (b, off) ← nextByte bs off
      let (lto, off) ← parseDVBDurationMinutes bs off
      let (toc, off) ← parseDVBTime bs off
      let (nto, off) ← parseDVBDurationMinutes bs off
      newDescriptorLocalTimeOffsetLoop bs fuel offsetEnd off
        (acc ++ [{ CountryCode := cc, CountryRegionID := b >>> 2,
                   LocalTimeOffsetPolarity := (b &&& 0x1) != 0,
                   LocalTimeOffset := lto, TimeOfChange := some toc,
                   NextTimeOffset := nto }])
    else pure (acc, off)

/-- src/descriptor.go newDescriptorLocalTimeOffset. -/
def newDescriptorLocalTimeOffset (bs : List Nat) (fuel offsetEnd off : Nat) :
    Except Err (DescriptorLocalTimeOffset × Nat) := do
  let (items, off) ← newDescriptorLocalTimeOffsetLoop bs fuel offsetEnd off []
  pure ({ Items := items }, off)

/-- src/descriptor.go DescriptorMaximumBitrate. -/
structure DescriptorMaximumBitrate where
  Bitrate : Nat
  deriving DecidableEq, Repr

/-- src/descriptor.go newDescriptorMaximumBitrate. -/
def newDescriptorMaximumBitrate (bs : List Nat) (off : Nat) :
    Except Err (DescriptorMaximumBitrate × Nat) := do
  let (cs, off) ← nextBytes bs 3 off
  pure ({ Bitrate := ((((cs.getD 0 0) &&& 0x3f) <<< 16 ||| (cs.getD 1 0) <<< 8 |||
                      cs.getD 2 0) * 50) % 4294967296 }, off)

/-- src/descriptor.go DescriptorNetworkName. -/
structure DescriptorNetworkName where
  Name : List Nat
  deriving DecidableEq, Repr

/-- src/descriptor.go newDescriptorNetworkName. -/
def newDescriptorNetworkName (bs : List Nat) (offsetEnd off : Nat) :
    Except Err (DescriptorNetworkName × Nat) := do
  let (cs, off) ← nextBytes bs (offsetEnd - off) off
  pure ({ Name := cs }, off)

/-- src/descriptor.go DescriptorParentalRatingItem. -/
structure DescriptorParentalRatingItem where
  CountryCode : List Nat
  Rating : Nat
  deriving DecidableEq, Repr

/-- src/descriptor.go DescriptorParentalRating. -/
structure DescriptorParentalRating where
  Items : List DescriptorParentalRatingItem
  deriving DecidableEq, Repr

/-- The item loop of src/descriptor.go newDescriptorParentalRating. -/
def newDescriptorParentalRatingLoop (bs : List Nat) :
    Nat → Nat → Nat → List DescriptorParentalRatingItem →
    Except Err (List DescriptorParentalRatingItem × Nat)
  | 0, _, _, _ => .error .fuelExhausted
  | fuel + 1, offsetEnd, off, acc =>
    if off < offsetEnd then do
      let (cs, off) ← nextBytes bs 4 off
      newDescriptorParentalRatingLoop bs fuel offsetEnd off
        (acc ++ [{ CountryCode := cs.take 3, Rating := cs.getD 3 0 }])
    else pure (acc, off)

/-- src/descriptor.go newDescriptorParentalRating. -/
def newDescriptorParentalRating (bs : List Nat) (fuel offsetEnd off : Nat) :
    Except Err (DescriptorParentalRating × Nat) := do
  let (items, off) ← newDescriptorParentalRatingLoop bs fuel offsetEnd off []
  pure ({ Items := items }, off)

/-- src/descriptor.go DescriptorPrivateDataIndicator. -/
structure DescriptorPrivateDataIndicator where
  Indicator : Nat
  deriving DecidableEq, Repr

/-- src/descriptor.go newDescriptorPrivateDataIndicator. -/
def newDescriptorPrivateDataIndicator (bs : List Nat) (off : Nat) :
    Except Err (DescriptorPrivateDataIndicator × Nat) := do
  let (cs, off) ← nextBytes bs 4 off
  pure ({ Indicator := (cs.getD 0 0) <<< 24 ||| (cs.getD 1 0) <<< 16 |||
                       (cs.getD 2 0) <<< 8 ||| cs.getD 3 0 }, off)

/-- src/descriptor.go DescriptorPrivateDataSpecifier. -/
structure DescriptorPrivateDataSpecifier where
  Specifier : Nat
  deriving DecidableEq, Repr

/-- src/descriptor.go newDescriptorPrivateDataSpecifier. -/
def newDescriptorPrivateDataSpecifier (bs : List Nat) (off : Nat) :
    Except Err (DescriptorPrivateDataSpecifier × Nat) := do
  let (cs, off) ← nextBytes bs 4 off
  pure ({ Specifier := (cs.getD 0 0) <<< 24 ||| (cs.getD 1 0) <<< 16 |||
                       (cs.getD 2 0) <<< 8 ||| cs.getD 3 0 }, off)

/-- src/descriptor.go DescriptorRegistration. -/
structure DescriptorRegistration where
  AdditionalIdentificationInfo : List Nat := []
  FormatIdentifier : Nat := 0
  deriving DecidableEq, Repr

/-- src/descriptor.go newDescriptorRegistration. -/
def newDescriptorRegistration (bs : List Nat) (offsetEnd off : Nat) :
    Except Err (DescriptorRegistration × Nat) := do
  let (cs, off) ← nextBytes bs 4 off
  let d : DescriptorRegistration :=
    { FormatIdentifier := (cs.getD 0 0) <<< 24 ||| (cs.getD 1 0) <<< 16 |||
                          (cs.getD 2 0) <<< 8 ||| cs.getD 3 0 }
  if off < offsetEnd then do
    let (cs, off) ← nextBytes bs (offsetEnd - off) off
    pure ({ d with AdditionalIdentificationInfo := cs }, off)
  else pure (d, off)

/-- src/descriptor.go DescriptorService. -/
structure DescriptorService where
  Name : List Nat := []
  Provider : List Nat := []
  Typ : Nat := 0 -- Go field Type (Type is a Lean keyword)
  deriving DecidableEq, Repr

/-- src/descriptor.go newDescriptorService. -/
def newDescriptorService (bs : List Nat) (off : Nat) :
    Except Err (DescriptorService × Nat) := do
  let (b, off) ← nextByte bs off
  let typ := b
  let (b, off) ← nextByte bs off
  let (provider, off) ← nextBytes bs b off
  let (b, off) ← nextByte bs off
  let (name, off) ← nextBytes bs b off
  pure ({ Name := name, Provider := provider, Typ := typ }, off)

/-- src/descriptor.go DescriptorShortEvent. -/
structure DescriptorShortEvent where
  EventName : List Nat := []
  Language : List Nat := []
  Text : List Nat := []
  deriving DecidableEq, Repr

/-- src/descriptor.go newDescriptorShortEvent. -/
def newDescriptorShortEvent (bs : List Nat) (off : Nat) :
    Except Err (DescriptorShortEvent × Nat) := do
  let (language, off) ← nextBytes bs 3 off
  let (b, off) ← nextByte bs off
  let (eventName, off) ← nextBytes bs b off
  let (b, off) ← nextByte bs off
  let (text, off) ← nextBytes bs b off
  pure ({ EventName := eventName, Language := language, Text := text }, off)

/-- src/descriptor.go DescriptorStreamIdentifier. -/
structure DescriptorStreamIdentifier where
  ComponentTag : Nat
  deriving DecidableEq, Repr

/-- src/descriptor.go newDescriptorStreamIdentifier. -/
def newDescriptorStreamIdentifier (bs : List Nat) (off : Nat) :
    Except Err (DescriptorStreamIdentifier × Nat) := do
  let (b, off) ← nextByte bs off
  pure ({ ComponentTag := b }, off)

/-- src/descriptor.go DescriptorSubtitlingItem. -/
structure DescriptorSubtitlingItem where
  AncillaryPageID : Nat := 0
  CompositionPageID : Nat := 0
  Language : List Nat := []
  Typ : Nat := 0 -- Go field Type (Type is a Lean keyword)
  deriving DecidableEq, Repr

/-- src/descriptor.go DescriptorSubtitling. -/
structure DescriptorSubtitling where
  Items : List DescriptorSubtitlingItem
  deriving DecidableEq, Repr

/-- The item loop of src/descriptor.go newDescriptorSubtitling. -/
def newDescriptorSubtitlingLoop (bs : List Nat) :
    Nat → Nat → Nat → List DescriptorSubtitlingItem →
    Except Err (List DescriptorSubtitlingItem × Nat)
  | 0, _, _, _ => .error .fuelExhausted
  | fuel + 1, offsetEnd, off, acc =>
    if off < offsetEnd then do
      let (language, off) ← nextBytes bs 3 off
      let (b, off) ← nextByte bs off
      let (cs1, off) ← nextBytes bs 2 off
      let (cs2, off) ← nextBytes bs 2 off
      newDescriptorSubtitlingLoop bs fuel offsetEnd off
        (acc ++ [{ Language := language, Typ := b,
                   CompositionPageID := (cs1.getD 0 0) <<< 8 ||| cs1.getD 1 0,
                   AncillaryPageID := (cs2.getD 0 0) <<< 8 ||| cs2.getD 1 0 }])
    else pure (acc, off)

/-- src/descriptor.go newDescriptorSubtitling. -/
def newDescriptorSubtitling (bs : List Nat) (fuel offsetEnd off : Nat) :
    Except Err (DescriptorSubtitling × Nat) := do
  let (items, off) ← newDescriptorSubtitlingLoop bs fuel offsetEnd off []
  pure ({ Items := items }, off)

/-- src/descriptor.go DescriptorTeletextItem. -/
structure DescriptorTeletextItem where
  Language : List Nat := []
  Magazine : Nat := 0
  Page : Nat := 0
  Typ : Nat := 0 -- Go field Type (Type is a Lean keyword)
  deriving DecidableEq, Repr

/-- src/descriptor.go DescriptorTeletext. -/
structure DescriptorTeletext where
  Items : List DescriptorTeletextItem
  deriving DecidableEq, Repr

/-- The item loop of src/descriptor.go newDescriptorTeletext. -/
def newDescriptorTeletextLoop (bs : List Nat) :
    Nat → Nat → Nat → List DescriptorTeletextItem →
    Except Err (List DescriptorTeletextItem × Nat)
  | 0, _, _, _ => .error .fuelExhausted
  | fuel + 1, offsetEnd, off, acc =>
    if off < offsetEnd then do
      let (language, off) ← nextBytes bs 3 off
      let (b, off) ← nextByte bs off
      let typ := b >>> 3
      let magazine := b &&& 0x7
      let (b, off) ← nextByte bs off
      newDescriptorTeletextLoop bs fuel offsetEnd off
        (acc ++ [{ Language := language, Typ := typ, Magazine := magazine,
                   Page := (b >>> 4) * 10 + (b &&& 0xf) }])
    else pure (acc, off)

/-- src/descriptor.go newDescriptorTeletext. -/
def newDescriptorTeletext (bs : List Nat) (fuel offsetEnd off : Nat) :
    Except Err (DescriptorTeletext × Nat) := do
  let (items, off) ← newDescriptorTeletextLoop bs fuel offsetEnd off []
  pure ({ Items := items }, off)

/-- src/descriptor.go DescriptorUnknown. -/
structure DescriptorUnknown where
  Content : List Nat := []
  Tag : Nat := 0
  deriving DecidableEq, Repr

/-- src/descriptor.go newDescriptorUnknown. -/
def newDescriptorUnknown (bs : List Nat) (tag length off : Nat) :
    Except Err (DescriptorUnknown × Nat) := do
  let (cs, off) ← nextBytes bs length off
  pure ({ Tag := tag, Content := cs }, off)

/-- src/descriptor.go DescriptorVBIDataDescriptor. -/
structure DescriptorVBIDataDescriptor where
  FieldParity : Bool
  LineOffset : Nat
  deriving DecidableEq, Repr

/-- src/descriptor.go DescriptorVBIDataService. -/
structure DescriptorVBIDataService where
  DataServiceID : Nat := 0
  Descriptors : List DescriptorVBIDataDescriptor := []
  deriving DecidableEq, Repr

/-- src/descriptor.go DescriptorVBIData. -/
structure DescriptorVBIData where
  Services : List DescriptorVBIDataService
  deriving DecidableEq, Repr

/-- src/descriptor.go VBI data service IDs that carry one data byte per line. -/
def vbiDataServiceIDKnown (id : Nat) : Bool :=
  id = 0x6 ∨ id = 0x1 ∨ id = 0x2 ∨ id = 0x7 ∨ id = 0x4 ∨ id = 0x5

/-- The inner data loop of src/descriptor.go newDescriptorVBIData.  In the Go
source this loop never advances for an unrecognised data service ID, so it can
spin forever; the model surfaces that as fuel exhaustion. -/
def newDescriptorVBIDataInnerLoop (bs : List Nat) (dataServiceID : Nat) :
    Nat → Nat → Nat → List DescriptorVBIDataDescriptor →
    Except Err (List DescriptorVBIDataDescriptor × Nat)
  | 0, _, _, _ => .error .fuelExhausted
  | fuel + 1, offsetDataEnd, off, acc =>
    if off < offsetDataEnd then
      if vbiDataServiceIDKnown dataServiceID then do
        let (b, off) ← nextByte bs off
        newDescriptorVBIDataInnerLoop bs dataServiceID fuel offsetDataEnd off
          (acc ++ [{ FieldParity := (b &&& 0x20) != 0, LineOffset := b &&& 0x1f }])
      else newDescriptorVBIDataInnerLoop bs dataServiceID fuel offsetDataEnd off acc
    else pure (acc, off)

/-- The service loop of src/descriptor.go newDescriptorVBIData. -/
def newDescriptorVBIDataLoop (bs : List Nat) :
    Nat → Nat → Nat → List DescriptorVBIDataService →
    Except Err (List DescriptorVBIDataService × Nat)
  | 0, _, _, _ => .error .fuelExhausted
  | fuel + 1, offsetEnd, off, acc =>
    if off < offsetEnd then do
      let (b, off) ← nextByte bs off
      let dataServiceID := b
      let (b, off) ← nextByte bs off
      let (ds, off) ← newDescriptorVBIDataInnerLoop bs dataServiceID fuel (off + b) off []
      newDescriptorVBIDataLoop bs fuel offsetEnd off
        (acc ++ [{ DataServiceID := dataServiceID, Descriptors := ds }])
    else pure (acc, off)

/-- src/descriptor.go newDescriptorVBIData. -/
def newDescriptorVBIData (bs : List Nat) (fuel offsetEnd off : Nat) :
    Except Err (DescriptorVBIData × Nat) := do
  let (services, off) ← newDescriptorVBIDataLoop bs fuel offsetEnd off []
  pure ({ Services := services }, off)

/-! ### Descriptor record and descriptor loop (src/descriptor.go) -/

/-- src/descriptor.go descriptor tags. -/
def DescriptorTagAC3 : Nat := 0x6a

/-- src/descriptor.go DescriptorTagAVCVideo. -/
def DescriptorTagAVCVideo : Nat := 0x28

/-- src/descriptor.go DescriptorTagComponent. -/
def DescriptorTagComponent : Nat := 0x50

/-- src/descriptor.go DescriptorTagContent. -/
def DescriptorTagContent : Nat := 0x54

/-- src/descriptor.go DescriptorTagDataStreamAlignment. -/
def DescriptorTagDataStreamAlignment : Nat := 0x6

/-- src/descriptor.go DescriptorTagEnhancedAC3. -/
def DescriptorTagEnhancedAC3 : Nat := 0x7a

/-- src/descriptor.go DescriptorTagExtendedEvent. -/
def DescriptorTagExtendedEvent : Nat := 0x4e

/-- src/descriptor.go DescriptorTagExtension. -/
def DescriptorTagExtension : Nat := 0x7f

/-- src/descriptor.go DescriptorTagISO639LanguageAndAudioType. -/
def DescriptorTagISO639LanguageAndAudioType : Nat := 0xa

/-- src/descriptor.go DescriptorTagLocalTimeOffset. -/
def DescriptorTagLocalTimeOffset : Nat := 0x58

/-- src/descriptor.go DescriptorTagMaximumBitrate. -/
def DescriptorTagMaximumBitrate : Nat := 0xe

/-- src/descriptor.go DescriptorTagNetworkName. -/
def DescriptorTagNetworkName : Nat := 0x40

/-- src/descriptor.go DescriptorTagParentalRating. -/
def DescriptorTagParentalRating : Nat := 0x55

/-- src/descriptor.go DescriptorTagPrivateDataIndicator. -/
def DescriptorTagPrivateDataIndicator : Nat := 0xf

/-- src/descriptor.go DescriptorTagPrivateDataSpecifier. -/
def DescriptorTagPrivateDataSpecifier : Nat := 0x5f

/-- src/descriptor.go DescriptorTagRegistration. -/
def DescriptorTagRegistration : Nat := 0x5

/-- src/descriptor.go DescriptorTagService. -/
def DescriptorTagService : Nat := 0x48

/-- src/descriptor.go DescriptorTagShortEvent. -/
def DescriptorTagShortEvent : Nat := 0x4d

/-- src/descriptor.go DescriptorTagStreamIdentifier. -/
def DescriptorTagStreamIdentifier : Nat := 0x52

/-- src/descriptor.go DescriptorTagSubtitling. -/
def DescriptorTagSubtitling : Nat := 0x59

/-- src/descriptor.go DescriptorTagTeletext. -/
def DescriptorTagTeletext : Nat := 0x56

/-- src/descriptor.go DescriptorTagVBIData. -/
def DescriptorTagVBIData : Nat := 0x45

/-- src/descriptor.go DescriptorTagVBITeletext. -/
def DescriptorTagVBITeletext : Nat := 0x46

/-- src/descriptor.go Descriptor: the tag-dispatched variants as optional
fields, plus the retained raw body bytes used for re-serialisation. -/
structure Descriptor where
  AC3 : Option DescriptorAC3 := none
  AVCVideo : Option DescriptorAVCVideo := none
  Component : Option DescriptorComponent := none
  Content : Option DescriptorContent := none
  DataStreamAlignment : Option DescriptorDataStreamAlignment := none
  EnhancedAC3 : Option DescriptorEnhancedAC3 := none
  ExtendedEvent : Option DescriptorExtendedEvent := none
  Extension : Option DescriptorExtension := none
  ISO639LanguageAndAudioType : Option DescriptorISO639LanguageAndAudioType := none
  Length : Nat := 0
  LocalTimeOffset : Option DescriptorLocalTimeOffset := none
  MaximumBitrate : Option DescriptorMaximumBitrate := none
  NetworkName : Option DescriptorNetworkName := none
  ParentalRating : Option DescriptorParentalRating := none
  PrivateDataIndicator : Option DescriptorPrivateDataIndicator := none
  PrivateDataSpecifier : Option DescriptorPrivateDataSpecifier := none
  Registration : Option DescriptorRegistration := none
  Service : Option DescriptorService := none
  ShortEvent : Option DescriptorShortEvent := none
  StreamIdentifier : Option DescriptorStreamIdentifier := none
  Subtitling : Option DescriptorSubtitling := none
  Tag : Nat := 0
  Teletext : Option DescriptorTeletext := none
  Unknown : Option DescriptorUnknown := none
  UserDefined : List Nat := []
  VBIData : Option DescriptorVBIData := none
  VBITeletext : Option DescriptorTeletext := none
  originalBytes : List Nat := []
  deriving DecidableEq, Repr

/-- The result of the tag dispatch of src/descriptor.go parseDescriptors:
which variant field of the descriptor gets set, and its value. -/
inductive DescriptorPayload where
  | userDefined (v : List Nat)
  | ac3 (v : DescriptorAC3)
  | avcVideo (v : DescriptorAVCVideo)
  | component (v : DescriptorComponent)
  | content (v : DescriptorContent)
  | dataStreamAlignment (v : DescriptorDataStreamAlignment)
  | enhancedAC3 (v : DescriptorEnhancedAC3)
  | extendedEvent (v : DescriptorExtendedEvent)
  | extension (v : DescriptorExtension)
  | iso639 (v : DescriptorISO639LanguageAndAudioType)
  | localTimeOffset (v : DescriptorLocalTimeOffset)
  | maximumBitrate (v : DescriptorMaximumBitrate)
  | networkName (v : DescriptorNetworkName)
  | parentalRating (v : DescriptorParentalRating)
  | privateDataIndicator (v : DescriptorPrivateDataIndicator)
  | privateDataSpecifier (v : DescriptorPrivateDataSpecifier)
  | registration (v : DescriptorRegistration)
  | service (v : DescriptorService)
  | shortEvent (v : DescriptorShortEvent)
  | streamIdentifier (v : DescriptorStreamIdentifier)
  | subtitling (v : DescriptorSubtitling)
  | teletext (v : DescriptorTeletext)
  | vbiData (v : DescriptorVBIData)
  | vbiTeletext (v : DescriptorTeletext)
  | unknown (v : DescriptorUnknown)
  deriving DecidableEq, Repr

/-- Store a parsed payload into its variant field of the descriptor (the
per-branch assignments of the Go switch). -/
def Descriptor.withPayload (d : Descriptor) : DescriptorPayload → Descriptor
  | .userDefined v => { d with UserDefined := v }
  | .ac3 v => { d with AC3 := some v }
  | .avcVideo v => { d with AVCVideo := some v }
  | .component v => { d with Component := some v }
  | .content v => { d with Content := some v }
  | .dataStreamAlignment v => { d with DataStreamAlignment := some v }
  | .enhancedAC3 v => { d with EnhancedAC3 := some v }
  | .extendedEvent v => { d with ExtendedEvent := some v }
  | .extension v => { d with Extension := some v }
  | .iso639 v => { d with ISO639LanguageAndAudioType := some v }
  | .localTimeOffset v => { d with LocalTimeOffset := some v }
  | .maximumBitrate v => { d with MaximumBitrate := some v }
  | .networkName v => { d with NetworkName := some v }
  | .parentalRating v => { d with ParentalRating := some v }
  | .privateDataIndicator v => { d with PrivateDataIndicator := some v }
  | .privateDataSpecifier v => { d with PrivateDataSpecifier := some v }
  | .registration v => { d with Registration := some v }
  | .service v => { d with Service := some v }
  | .shortEvent v => { d with ShortEvent := some v }
  | .streamIdentifier v => { d with StreamIdentifier := some v }
  | .subtitling v => { d with Subtitling := some v }
  | .teletext v => { d with Teletext := some v }
  | .vbiData v => { d with VBIData := some v }
  | .vbiTeletext v => { d with VBITeletext := some v }
  | .unknown v => { d with Unknown := some v }

/-- The tag dispatch of src/descriptor.go parseDescriptors (the
`if d.Tag >= 0x80 && d.Tag <= 0xfe` branch and the switch), producing the
parsed variant payload. -/
def parseDescriptorVariant (bs : List Nat) (fuel offsetDescriptorEnd tag length off : Nat) :
    Except Err (DescriptorPayload × Nat) :=
  if 0x80 ≤ tag ∧ tag ≤ 0xfe then do
    let (cs, off) ← nextBytes bs length off
    pure (.userDefined cs, off)
  else if tag = DescriptorTagAC3 then do
    let (x, off) ← newDescriptorAC3 bs offsetDescriptorEnd off
    pure (.ac3 x, off)
  else if tag = DescriptorTagAVCVideo then do
    let (x, off) ← newDescriptorAVCVideo bs off
    pure (.avcVideo x, off)
  else if tag = DescriptorTagComponent then do
    let (x, off) ← newDescriptorComponent bs offsetDescriptorEnd off
    pure (.component x, off)
  else if tag = DescriptorTagContent then do
    let (x, off) ← newDescriptorContent bs fuel offsetDescriptorEnd off
    pure (.content x, off)
  else if tag = DescriptorTagDataStreamAlignment then do
    let (x, off) ← newDescriptorDataStreamAlignment bs off
    pure (.dataStreamAlignment x, off)
  else if tag = DescriptorTagEnhancedAC3 then do
    let (x, off) ← newDescriptorEnhancedAC3 bs offsetDescriptorEnd off
    pure (.enhancedAC3 x, off)
  else if tag = DescriptorTagExtendedEvent then do
    let (x, off) ← newDescriptorExtendedEvent bs fuel off
    pure (.extendedEvent x, off)
  else if tag = DescriptorTagExtension then do
    let (x, off) ← newDescriptorExtension bs offsetDescriptorEnd off
    pure (.extension x, off)
  else if tag = DescriptorTagISO639LanguageAndAudioType then do
    let (x, off) ← newDescriptorISO639LanguageAndAudioType bs offsetDescriptorEnd off
    pure (.iso639 x, off)
  else if tag = DescriptorTagLocalTimeOffset then do
    let (x, off) ← newDescriptorLocalTimeOffset bs fuel offsetDescriptorEnd off
    pure (.localTimeOffset x, off)
  else if tag = DescriptorTagMaximumBitrate then do
    let (x, off) ← newDescriptorMaximumBitrate bs off
    pure (.maximumBitrate x, off)
  else if tag = DescriptorTagNetworkName then do
    let (x, off) ← newDescriptorNetworkName bs offsetDescriptorEnd off
    pure (.networkName x, off)
  else if tag = DescriptorTagParentalRating then do
    let (x, off) ← newDescriptorParentalRating bs fuel offsetDescriptorEnd off
    pure (.parentalRating x, off)
  else if tag = DescriptorTagPrivateDataIndicator then do
    let (x, off) ← newDescriptorPrivateDataIndicator bs off
    pure (.privateDataIndicator x, off)
  else if tag = DescriptorTagPrivateDataSpecifier then do
    let (x, off) ← newDescriptorPrivateDataSpecifier bs off
    pure (.privateDataSpecifier x, off)
  else if tag = DescriptorTagRegistration then do
    let (x, off) ← newDescriptorRegistration bs offsetDescriptorEnd off
    pure (.registration x, off)
  else if tag = DescriptorTagService then do
    let (x, off) ← newDescriptorService bs off
    pure (.service x, off)
  else if tag = DescriptorTagShortEvent then do
    let (x, off) ← newDescriptorShortEvent bs off
    pure (.shortEvent x, off)
  else if tag = DescriptorTagStreamIdentifier then do
    let (x, off) ← newDescriptorStreamIdentifier bs off
    pure (.streamIdentifier x, off)
  else if tag = DescriptorTagSubtitling then do
    let (x, off) ← newDescriptorSubtitling bs fuel offsetDescriptorEnd off
    pure (.subtitling x, off)
  else if tag = DescriptorTagTeletext then do
    let (x, off) ← newDescriptorTeletext bs fuel offsetDescriptorEnd off
    pure (.teletext x, off)
  else if tag = DescriptorTagVBIData then do
    let (x, off) ← newDescriptorVBIData bs fuel offsetDescriptorEnd off
    pure (.vbiData x, off)
  else if tag = DescriptorTagVBITeletext then do
    let (x, off) ← newDescriptorTeletext bs fuel offsetDescriptorEnd off
    pure (.vbiTeletext x, off)
  else do
    let (x, off) ← newDescriptorUnknown bs tag length off
    pure (.unknown x, off)

/-- The tag dispatch applied to a descriptor whose Tag and Length fields are
set, starting at the body. -/
def parseDescriptorPayload (bs : List Nat) (fuel offsetDescriptorEnd : Nat)
    (d : Descriptor) (off : Nat) : Except Err (Descriptor × Nat) := do
  let (p, off) ← parseDescriptorVariant bs fuel offsetDescriptorEnd d.Tag d.Length off
  pure (d.withPayload p, off)

/-- The descriptor loop of src/descriptor.go parseDescriptors.  Each iteration
reads the 2-byte tag+length, retains a copy of the `Length` body bytes, runs
the tag dispatch, and then seeks to the end of the declared descriptor
(`offsetDescriptorEnd`) regardless of what the dispatched parser consumed. -/
def parseDescriptorsLoop (bs : List Nat) :
    Nat → Nat → Nat → List Descriptor → Except Err (List Descriptor × Nat)
  | 0, _, _, _ => .error .fuelExhausted
  | fuel + 1, offsetEnd, off, acc =>
    if off < offsetEnd then do
      let (cs, off) ← nextBytes bs 2 off
      let d : Descriptor := { Length := cs.getD 1 0, Tag := cs.getD 0 0 }
      if d.Length ≠ 0 then do
        let offsetDescriptorEnd := off + d.Length
        let origOffset := off
        let (origBytes, _) ← nextBytes bs d.Length off
        let d := { d with originalBytes := origBytes }
        let (d, _) ← parseDescriptorPayload bs fuel offsetDescriptorEnd d origOffset
        parseDescriptorsLoop bs fuel offsetEnd offsetDescriptorEnd (acc ++ [d])
      else
        parseDescriptorsLoop bs fuel offsetEnd off (acc ++ [d])
    else pure (acc, off)

/-- src/descriptor.go parseDescriptors: reads the 12-bit loop length out of the
next 2 bytes and parses the loop. -/
def parseDescriptors (bs : List Nat) (fuel off : Nat) :
    Except Err (List Descriptor × Nat) := do
  let (cs, off) ← nextBytes bs 2 off
  let length := ((cs.getD 0 0) &&& 0xf) <<< 8 ||| cs.getD 1 0
  if length ≠ 0 then
    parseDescriptorsLoop bs fuel (off + length) off []
  else pure ([], off)

/-- The total size of a list of descriptors as declared: 2 header bytes plus
the declared length, per descriptor. -/
def descriptorsLengthSum (ds : List Descriptor) : Nat :=
  (ds.map (fun d => 2 + d.Length)).sum

/-- Go `copy(b[k:], src)`: overwrite the bytes of `b` from index `k` on with
the bytes of `src`, never growing `b`. -/
def listCopy (b : List Nat) (k : Nat) (src : List Nat) : List Nat :=
  b.take k ++ src.take (b.length - k) ++ b.drop (k + src.length)

/-- src/descriptor.go Descriptor.Serialise.  The returned count is
`int(d.Length + 2)` where the addition is done on uint8 in Go, hence the
explicit wrap at 256. -/
def Descriptor.Serialise (d : Descriptor) (b : List Nat) :
    Except Err (Nat × List Nat) :=
  if b.length < 3 ∨ b.length < d.Length + 2 then .error .noRoomInBuffer
  else
    let b := b.set 0 d.Tag
    let b := b.set 1 d.Length
    let b := listCopy b 2 d.originalBytes
    .ok ((d.Length + 2) % 256, b)

/-! ### PSI data model (src/data_psi.go) -/

/-- src/data_psi.go PSISectionHeader. -/
structure PSISectionHeader where
  PrivateBit : Bool := false
  SectionLength : Nat := 0
  SectionSyntaxIndicator : Bool := false
  TableID : Nat := 0
  TableType : PSITableType := .Unknown
  deriving DecidableEq, Repr

/-- src/data_psi.go PSISectionSyntaxHeader. -/
structure PSISectionSyntaxHeader where
  CurrentNextIndicator : Bool := false
  LastSectionNumber : Nat := 0
  SectionNumber : Nat := 0
  TableIDExtension : Nat := 0
  VersionNumber : Nat := 0
  deriving DecidableEq, Repr

/-- PATProgram (not under src/; modelled from the spec: 16-bit program number
and 13-bit program map PID). -/
structure PATProgram where
  ProgramMapID : Nat
  ProgramNumber : Nat
  deriving DecidableEq, Repr

/-- PATData (not under src/; modelled from the spec). -/
structure PATData where
  Programs : List PATProgram := []
  TransportStreamID : Nat := 0
  deriving DecidableEq, Repr

/-- PMTElementaryStream (not under src/; modelled from the spec). -/
structure PMTElementaryStream where
  ElementaryPID : Nat := 0
  ElementaryStreamDescriptors : List Descriptor := []
  StreamType : Nat := 0
  deriving DecidableEq, Repr

/-- PMTData (not under src/; modelled from the spec). -/
structure PMTData where
  ElementaryStreams : List PMTElementaryStream := []
  PCRPID : Nat := 0
  ProgramDescriptors : List Descriptor := []
  ProgramNumber : Nat := 0
  deriving DecidableEq, Repr

/-- NITDataTransportStream (not under src/; modelled from the spec). -/
structure NITDataTransportStream where
  OriginalNetworkID : Nat := 0
  TransportDescriptors : List Descriptor := []
  TransportStreamID : Nat := 0
  deriving DecidableEq, Repr

/-- NITData (not under src/; modelled from the spec). -/
structure NITData where
  NetworkDescriptors : List Descriptor := []
  NetworkID : Nat := 0
  TransportStreams : List NITDataTransportStream := []
  deriving DecidableEq, Repr

/-- SDTDataService (not under src/; modelled from the spec). -/
structure SDTDataService where
  Descriptors : List Descriptor := []
  HasEITPresentFollowing : Bool := false
  HasEITSchedule : Bool := false
  HasFreeCSAMode : Bool := false
  RunningStatus : Nat := 0
  ServiceID : Nat := 0
  deriving DecidableEq, Repr

/-- SDTData (not under src/; modelled from the spec). -/
structure SDTData where
  OriginalNetworkID : Nat := 0
  Services : List SDTDataService := []
  deriving DecidableEq, Repr

/-- EITDataEvent (not under src/; modelled from the spec; a start time of five
0xFF bytes is reported as undefined, i.e. `none`). -/
structure EITDataEvent where
  Descriptors : List Descriptor := []
  Duration : Nat := 0
  EventID : Nat := 0
  HasFreeCSAMode : Bool := false
  RunningStatus : Nat := 0
  StartTime : Option DVBTime := none
  deriving DecidableEq, Repr

/-- EITData (not under src/; modelled from the spec). -/
structure EITData where
  Events : List EITDataEvent := []
  LastTableID : Nat := 0
  OriginalNetworkID : Nat := 0
  SegmentLastSectionNumber : Nat := 0
  ServiceID : Nat := 0
  TransportStreamID : Nat := 0
  deriving DecidableEq, Repr

/-- TOTData (not under src/; modelled from the spec). -/
structure TOTData where
  Descriptors : List Descriptor := []
  UTCTime : DVBTime
  deriving DecidableEq, Repr

/-- src/data_psi.go PSISectionSyntaxData. -/
structure PSISectionSyntaxData where
  EIT : Option EITData := none
  NIT : Option NITData := none
  PAT : Option PATData := none
  PMT : Option PMTData := none
  SDT : Option SDTData := none
  TOT : Option TOTData := none
  deriving DecidableEq, Repr

/-- src/data_psi.go PSISectionSyntax (both fields are Go pointers). -/
structure PSISectionSyntax where
  Data : Option PSISectionSyntaxData := none
  Header : Option PSISectionSyntaxHeader := none
  deriving DecidableEq, Repr

/-- src/data_psi.go PSISection.  The Go struct points at its header; every
code path dereferences the header unconditionally, so it is a plain field. -/
structure PSISection where
  CRC32 : Nat := 0
  Header : PSISectionHeader := {}
  Syntax : Option PSISectionSyntax := none
  deriving DecidableEq, Repr

/-- src/data_psi.go PSIData. -/
structure PSIData where
  PointerField : Nat := 0
  Sections : List PSISection := []
  deriving DecidableEq, Repr

/-! ### Table body parsers

`parsePATSection`, `parsePMTSection`, `parseNITSection`, `parseSDTSection`,
`parseEITSection` and `parseTOTSection` are repository code that is not under
src/ (src/data_psi.go only calls them), so they are modelled from the spec. -/

/-- The program entry loop of the PAT parser. -/
def parsePATSectionLoop (bs : List Nat) :
    Nat → Nat → Nat → List PATProgram → Except Err (List PATProgram × Nat)
  | 0, _, _, _ => .error .fuelExhausted
  | fuel + 1, offsetSectionsEnd, off, acc =>
    if off < offsetSectionsEnd then do
      let (cs, off) ← nextBytes bs 4 off
      parsePATSectionLoop bs fuel offsetSectionsEnd off
        (acc ++ [{ ProgramNumber := (cs.getD 0 0) <<< 8 ||| cs.getD 1 0,
                   ProgramMapID := ((cs.getD 2 0) &&& 0x1f) <<< 8 ||| cs.getD 3 0 }])
    else pure (acc, off)

/-- Modelled from the spec: "PAT: loop 4-byte program entries" of 16-bit
program number, 3 reserved bits and a 13-bit PID, up to the end of the
sections; the transport stream ID is the table ID extension. -/
def parsePATSection (bs : List Nat) (fuel offsetSectionsEnd tableIDExtension off : Nat) :
    Except Err (PATData × Nat) := do
  let (programs, off) ← parsePATSectionLoop bs fuel offsetSectionsEnd off []
  pure ({ Programs := programs, TransportStreamID := tableIDExtension }, off)

/-- The elementary stream loop of the PMT parser. -/
def parsePMTSectionLoop (bs : List Nat) :
    Nat → Nat → Nat → List PMTElementaryStream →
    Except Err (List PMTElementaryStream × Nat)
  | 0, _, _, _ => .error .fuelExhausted
  | fuel + 1, offsetSectionsEnd, off, acc =>
    if off < offsetSectionsEnd then do
      let (b, off) ← nextByte bs off
      let (cs, off) ← nextBytes bs 2 off
      let (ds, off) ← parseDescriptors bs fuel off
      parsePMTSectionLoop bs fuel offsetSectionsEnd off
        (acc ++ [{ ElementaryPID := ((cs.getD 0 0) &&& 0x1f) <<< 8 ||| cs.getD 1 0,
                   ElementaryStreamDescriptors := ds, StreamType := b }])
    else pure (acc, off)

/-- Modelled from the spec: "PMT: 16-bit PCR-PID, program-info descriptor
loop, then ES loop of (stream type, elementary PID, descriptor loop)" up to
the end of the sections; the program number is the table ID extension. -/
def parsePMTSection (bs : List Nat) (fuel offsetSectionsEnd tableIDExtension off : Nat) :
    Except Err (PMTData × Nat) := do
  let (cs, off) ← nextBytes bs 2 off
  let pcrPID := ((cs.getD 0 0) &&& 0x1f) <<< 8 ||| cs.getD 1 0
  let (pds, off) ← parseDescriptors bs fuel off
  let (ess, off) ← parsePMTSectionLoop bs fuel offsetSectionsEnd off []
  pure ({ ElementaryStreams := ess, PCRPID := pcrPID, ProgramDescriptors := pds,
          ProgramNumber := tableIDExtension }, off)

/-- The transport stream loop of the NIT parser. -/
def parseNITSectionLoop (bs : List Nat) :
    Nat → Nat → Nat → List NITDataTransportStream →
    Except Err (List NITDataTransportStream × Nat)
  | 0, _, _, _ => .error .fuelExhausted
  | fuel + 1, offsetEnd, off, acc =>
    if off < offsetEnd then do
      let (cs1, off) ← nextBytes bs 2 off
      let (cs2, off) ← nextBytes bs 2 off
      let (ds, off) ← parseDescriptors bs fuel off
      parseNITSectionLoop bs fuel offsetEnd off
        (acc ++ [{ TransportStreamID := (cs1.getD 0 0) <<< 8 ||| cs1.getD 1 0,
                   OriginalNetworkID := (cs2.getD 0 0) <<< 8 ||| cs2.getD 1 0,
                   TransportDescriptors := ds }])
    else pure (acc, off)

/-- Modelled from the spec: "NIT: network-descriptor loop, then
transport-stream loop (TS ID, original network ID, transport descriptor
loop)".  The loop is delimited by its own 12-bit length field (the NIT parser
is not handed the sections end); the network ID is the table ID extension. -/
def parseNITSection (bs : List Nat) (fuel tableIDExtension off : Nat) :
    Except Err (NITData × Nat) := do
  let (nds, off) ← parseDescriptors bs fuel off
  let (cs, off) ← nextBytes bs 2 off
  let loopLength := ((cs.getD 0 0) &&& 0xf) <<< 8 ||| cs.getD 1 0
  let (tss, off) ← parseNITSectionLoop bs fuel (off + loopLength) off []
  pure ({ NetworkDescriptors := nds, NetworkID := tableIDExtension,
          TransportStreams := tss }, off)

/-- The service loop of the SDT parser. -/
def parseSDTSectionLoop (bs : List Nat) :
    Nat → Nat → Nat → List SDTDataService → Except Err (List SDTDataService × Nat)
  | 0, _, _, _ => .error .fuelExhausted
  | fuel + 1, offsetSectionsEnd, off, acc =>
    if off < offsetSectionsEnd then do
      let (cs, off) ← nextBytes bs 2 off
      let (b, off) ← nextByte bs off
      let (st, _) ← nextBytes bs 2 off
      let (ds, off) ← parseDescriptors bs fuel off
      parseSDTSectionLoop bs fuel offsetSectionsEnd off
        (acc ++ [{ ServiceID := (cs.getD 0 0) <<< 8 ||| cs.getD 1 0,
                   HasEITSchedule := (b &&& 0x2) != 0,
                   HasEITPresentFollowing := (b &&& 0x1) != 0,
                   RunningStatus := (st.getD 0 0) >>> 5,
                   HasFreeCSAMode := ((st.getD 0 0) &&& 0x10) != 0,
                   Descriptors := ds }])
    else pure (acc, off)

/-- Modelled from the spec: "SDT: original-network-ID, then service loop
(service ID, EIT-schedule flag, EIT-present-following flag, running-status
(3 bits), free-CA-mode, service-descriptor-loop)" up to the end of the
sections.  The running status and free-CA bits share the two bytes holding
the 12-bit descriptor loop length, so they are peeked before the descriptor
loop is parsed; the original network ID is followed by one reserved byte. -/
def parseSDTSection (bs : List Nat) (fuel offsetSectionsEnd tableIDExtension off : Nat) :
    Except Err (SDTData × Nat) := do
  let (cs, off) ← nextBytes bs 2 off
  let (_, off) ← nextByte bs off
  let (services, off) ← parseSDTSectionLoop bs fuel offsetSectionsEnd off []
  let _ := tableIDExtension
  pure ({ OriginalNetworkID := (cs.getD 0 0) <<< 8 ||| cs.getD 1 0,
          Services := services }, off)

/-- The event loop of the EIT parser. -/
def parseEITSectionLoop (bs : List Nat) :
    Nat → Nat → Nat → List EITDataEvent → Except Err (List EITDataEvent × Nat)
  | 0, _, _, _ => .error .fuelExhausted
  | fuel + 1, offsetSectionsEnd, off, acc =>
    if off < offsetSectionsEnd then do
      let (cs, off) ← nextBytes bs 2 off
      let (tb, _) ← nextBytes bs 5 off
      let (t, off) ← parseDVBTime bs off
      let (dur, off) ← parseDVBDurationSeconds bs off
      let (st, _) ← nextBytes bs 2 off
      let (ds, off) ← parseDescriptors bs fuel off
      parseEITSectionLoop bs fuel offsetSectionsEnd off
        (acc ++ [{ EventID := (cs.getD 0 0) <<< 8 ||| cs.getD 1 0,
                   StartTime := if tb = [0xff, 0xff, 0xff, 0xff, 0xff] then none else some t,
                   Duration := dur,
                   RunningStatus := (st.getD 0 0) >>> 5,
                   HasFreeCSAMode := ((st.getD 0 0) &&& 0x10) != 0,
                   Descriptors := ds }])
    else pure (acc, off)

/-- Modelled from the spec: "EIT: transport-stream-ID, original-network-ID,
segment-last-section-number, last-table-ID, then event loop (event ID, start
time (DVB MJD+BCD, all-ones meaning undefined), duration (BCD HHMMSS),
running status, free CA mode, descriptor loop)" up to the end of the
sections; the service ID is the table ID extension.  As in the SDT, the
running status and free-CA bits are peeked out of the descriptor loop length
bytes. -/
def parseEITSection (bs : List Nat) (fuel offsetSectionsEnd tableIDExtension off : Nat) :
    Except Err (EITData × Nat) := do
  let (cs1, off) ← nextBytes bs 2 off
  let (cs2, off) ← nextBytes bs 2 off
  let (sls, off) ← nextByte bs off
  let (ltid, off) ← nextByte bs off
  let (events, off) ← parseEITSectionLoop bs fuel offsetSectionsEnd off []
  pure ({ Events := events, LastTableID := ltid,
          OriginalNetworkID := (cs2.getD 0 0) <<< 8 ||| cs2.getD 1 0,
          SegmentLastSectionNumber := sls, ServiceID := tableIDExtension,
          TransportStreamID := (cs1.getD 0 0) <<< 8 ||| cs1.getD 1 0 }, off)

/-- Modelled from the spec: "TOT: current time (DVB-MJD+BCD), descriptor
loop".  The TOT parser is not handed the sections end; its descriptor loop is
delimited by its own length field. -/
def parseTOTSection (bs : List Nat) (fuel off : Nat) : Except Err (TOTData × Nat) := do
  let (t, off) ← parseDVBTime bs off
  let (ds, off) ← parseDescriptors bs fuel off
  pure ({ Descriptors := ds, UTCTime := t }, off)

/-! ### PSI section parsing (src/data_psi.go) -/

/-- src/data_psi.go parsePSISectionSyntaxHeader. -/
def parsePSISectionSyntaxHeader (bs : List Nat) (off : Nat) :
    Except Err (PSISectionSyntaxHeader × Nat) := do
  let (cs, off) ← nextBytes bs 2 off
  let tie := (cs.getD 0 0) <<< 8 ||| cs.getD 1 0
  let (b, off) ← nextByte bs off
  let vn := (b &&& 0x3f) >>> 1
  let cni := (b &&& 0x1) != 0
  let (sn, off) ← nextByte bs off
  let (lsn, off) ← nextByte bs off
  pure ({ CurrentNextIndicator := cni, LastSectionNumber := lsn, SectionNumber := sn,
          TableIDExtension := tie, VersionNumber := vn }, off)

/-- src/data_psi.go parsePSISectionSyntaxData: dispatch on the table type.
The syntax header is a Go pointer that is nil for tables without one; the
branches that use it (EIT, NIT, PAT, PMT, SDT) are exactly the tables that
have it, so the default value is never observable. -/
def parsePSISectionSyntaxData (bs : List Nat) (fuel : Nat) (h : PSISectionHeader)
    (sh : Option PSISectionSyntaxHeader) (offsetSectionsEnd off : Nat) :
    Except Err (PSISectionSyntaxData × Nat) :=
  match h.TableType with
  | .EIT => do
      let (x, off) ← parseEITSection bs fuel offsetSectionsEnd (sh.getD {}).TableIDExtension off
      pure ({ EIT := some x }, off)
  | .NIT => do
      let (x, off) ← parseNITSection bs fuel (sh.getD {}).TableIDExtension off
      pure ({ NIT := some x }, off)
  | .PAT => do
      let (x, off) ← parsePATSection bs fuel offsetSectionsEnd (sh.getD {}).TableIDExtension off
      pure ({ PAT := some x }, off)
  | .PMT => do
      let (x, off) ← parsePMTSection bs fuel offsetSectionsEnd (sh.getD {}).TableIDExtension off
      pure ({ PMT := some x }, off)
  | .SDT => do
      let (x, off) ← parseSDTSection bs fuel offsetSectionsEnd (sh.getD {}).TableIDExtension off
      pure ({ SDT := some x }, off)
  | .TOT => do
      let (x, off) ← parseTOTSection bs fuel off
      pure ({ TOT := some x }, off)
  | _ => pure ({}, off)

/-- src/data_psi.go parsePSISectionSyntax. -/
def parsePSISectionSyntax (bs : List Nat) (fuel : Nat) (h : PSISectionHeader)
    (offsetSectionsEnd off : Nat) : Except Err (PSISectionSyntax × Nat) := do
  let (sh, off) ← if hasPSISyntaxHeader h.TableType then do
      let (x, off) ← parsePSISectionSyntaxHeader bs off
      pure (some x, off)
    else pure ((none : Option PSISectionSyntaxHeader), off)
  let (d, off) ← parsePSISectionSyntaxData bs fuel h sh offsetSectionsEnd off
  pure ({ Data := some d, Header := sh }, off)

/-- src/data_psi.go parsePSISectionHeader.  Returns the header together with
`offsetStart`, `offsetSectionsStart`, `offsetSectionsEnd` and `offsetEnd`; on
the stop path (Null/Unknown table type) the Go named returns keep their zero
values. -/
def parsePSISectionHeader (bs : List Nat) (off : Nat) :
    Except Err ((PSISectionHeader × Nat × Nat × Nat × Nat) × Nat) := do
  let offsetStart := off
  let (b, off) ← nextByte bs off
  let tid := b
  let tt := psiTableType tid
  if shouldStopPSIParsing tt then
    pure (({ TableID := tid, TableType := tt }, offsetStart, 0, 0, 0), off)
  else do
    let (cs, off) ← nextBytes bs 2 off
    let sl := ((cs.getD 0 0) &&& 0xf) <<< 8 ||| cs.getD 1 0
    let offsetSectionsStart := off
    let offsetEnd := offsetSectionsStart + sl
    let offsetSectionsEnd := if hasCRC32 tt then offsetEnd - 4 else offsetEnd
    pure (({ PrivateBit := ((cs.getD 0 0) &&& 0x40) != 0, SectionLength := sl,
             SectionSyntaxIndicator := ((cs.getD 0 0) &&& 0x80) != 0,
             TableID := tid, TableType := tt },
           offsetStart, offsetSectionsStart, offsetSectionsEnd, offsetEnd), off)

/-- src/data_psi.go parsePSISection.  The Bool in the result is the `stop`
flag. -/
def parsePSISection (bs : List Nat) (fuel off : Nat) :
    Except Err ((PSISection × Bool) × Nat) := do
  let ((h, offsetStart, _, offsetSectionsEnd, offsetEnd), off) ← parsePSISectionHeader bs off
  if shouldStopPSIParsing h.TableType then
    pure (({ Header := h }, true), off)
  else if h.SectionLength ≠ 0 then do
    let (syn, _) ← parsePSISectionSyntax bs fuel h offsetSectionsEnd off
    if hasCRC32 h.TableType then do
      let (storedCRC, _) ← parseCRC32 bs offsetSectionsEnd
      let (crcData, _) ← nextBytes bs (offsetSectionsEnd - offsetStart) offsetStart
      let computed := computeCRC32 crcData
      if computed ≠ storedCRC then throw (Err.crc32Mismatch storedCRC computed)
      else pure (({ CRC32 := storedCRC, Header := h, Syntax := some syn }, false), offsetEnd)
    else
      pure (({ Header := h, Syntax := some syn }, false), offsetEnd)
  else
    pure (({ Header := h }, false), offsetEnd)

/-- The section loop of src/data_psi.go parsePSIData: parse sections while
bytes remain and the stop flag is unset; every parsed section is appended,
including the one that raises the stop flag. -/
def parsePSIDataLoop (bs : List Nat) :
    Nat → Nat → List PSISection → Except Err (List PSISection × Nat)
  | 0, _, _ => .error .fuelExhausted
  | fuel + 1, off, acc =>
    if hasBytesLeft bs off then do
      let ((s, stop), off) ← parsePSISection bs fuel off
      if stop then pure (acc ++ [s], off)
      else parsePSIDataLoop bs fuel off (acc ++ [s])
    else pure (acc, off)

/-- src/data_psi.go parsePSIData: pointer field, pointer filler skip, then
the section loop. -/
def parsePSIData (bs : List Nat) (fuel off : Nat) : Except Err (PSIData × Nat) := do
  let (b, off) ← nextByte bs off
  let off := off + b
  let (sections, off) ← parsePSIDataLoop bs fuel off []
  pure ({ PointerField := b, Sections := sections }, off)

/-! ### Serialisation (src/data_psi.go Serialise methods)

Serialisation buffers are windows of the caller's buffer; Go passes aliased
sub-slices, which is modelled by splicing the rewritten window back into the
surrounding list (all writers preserve the window length). -/

/-- src/data_psi.go Btou8. -/
def Btou8 (b : Bool) : Nat := if b then 1 else 0

/-- src/data_psi.go U16toU8s. -/
def U16toU8s (a : Nat) : Nat × Nat := (0xff &&& (a >>> 8), 0xff &&& a)

/-- The bytes PSISectionSyntaxHeader.Serialise writes into the buffer. -/
def psiSectionSyntaxHeaderOut (sh : PSISectionSyntaxHeader) : List Nat :=
  let (hi, lo) := U16toU8s sh.TableIDExtension
  [hi, lo,
   ((0x1f &&& sh.VersionNumber) <<< 1 ||| Btou8 sh.CurrentNextIndicator |||
    (3 <<< 6)) % 256,
   sh.SectionNumber % 256, sh.LastSectionNumber % 256]

/-- The bytes PSISectionHeader.Serialise writes for a non-Null table ID. -/
def psiSectionHeaderOut (h : PSISectionHeader) : List Nat :=
  [h.TableID % 256,
   (Btou8 h.SectionSyntaxIndicator <<< 7 ||| Btou8 h.PrivateBit <<< 6 |||
    (3 <<< 4) ||| (0xf &&& (h.SectionLength >>> 8))) % 256,
   0xff &&& h.SectionLength]

/-- The big-endian bytes of a CRC32 value as written by PSISection.Serialise. -/
def crc32OutBytes (c : Nat) : List Nat :=
  [(c >>> 24) &&& 0xff, (c >>> 16) &&& 0xff, (c >>> 8) &&& 0xff, c &&& 0xff]

/-- The bytes of one descriptor under the retained-raw-bytes serialisation:
tag, length, original body bytes. -/
def descriptorBytes (d : Descriptor) : List Nat :=
  (d.Tag % 256) :: (d.Length % 256) :: d.originalBytes

/-- A 12-bit descriptor loop with its 2-byte length prefix (reserved bits
written as the canonical 0xF pattern). -/
def descriptorLoopBytes (ds : List Descriptor) : List Nat :=
  let body := (ds.map descriptorBytes).flatten
  (0xf0 ||| ((body.length >>> 8) &&& 0xf)) :: (body.length &&& 0xff) :: body

/-- Modelled from the spec: the bytes of a PAT body, a 4-byte entry per
program (16-bit program number; 3 reserved bits written as ones; 13-bit
PID). -/
def patBodyBytes (d : PATData) : List Nat :=
  d.Programs.flatMap fun p =>
    [(p.ProgramNumber >>> 8) &&& 0xff, p.ProgramNumber &&& 0xff,
     0xe0 ||| ((p.ProgramMapID >>> 8) &&& 0x1f), p.ProgramMapID &&& 0xff]

/-- PATData.Serialise (not under src/; modelled from the spec: the PAT
serialiser writes the program entries and must round-trip with the parser). -/
def PATData.Serialise (d : PATData) (b : List Nat) : Except Err (Nat × List Nat) :=
  let out := patBodyBytes d
  if b.length < out.length then .error .noRoomInBuffer
  else .ok (out.length, out ++ b.drop out.length)

/-- Modelled from the spec: the bytes of a PMT body (16-bit PCR-PID with 3
reserved bits, program-info descriptor loop, then per elementary stream the
stream type, 16-bit elementary PID with 3 reserved bits and its descriptor
loop; reserved bits written as the canonical ones pattern). -/
def pmtBodyBytes (d : PMTData) : List Nat :=
  [0xe0 ||| ((d.PCRPID >>> 8) &&& 0x1f), d.PCRPID &&& 0xff] ++
  descriptorLoopBytes d.ProgramDescriptors ++
  (d.ElementaryStreams.flatMap fun es =>
    (es.StreamType % 256) :: (0xe0 ||| ((es.ElementaryPID >>> 8) &&& 0x1f)) ::
    (es.ElementaryPID &&& 0xff) :: descriptorLoopBytes es.ElementaryStreamDescriptors)

/-- PMTData.Serialise (not under src/; modelled from the spec). -/
def PMTData.Serialise (d : PMTData) (b : List Nat) : Except Err (Nat × List Nat) :=
  let out := pmtBodyBytes d
  if b.length < out.length then .error .noRoomInBuffer
  else .ok (out.length, out ++ b.drop out.length)

/-- src/data_psi.go PSISectionSyntaxData.Serialise: PAT and PMT payloads are
serialised, everything else writes nothing. -/
def PSISectionSyntaxData.Serialise (sd : PSISectionSyntaxData) (b : List Nat) :
    Except Err (Nat × List Nat) :=
  match sd.PAT with
  | some pat => pat.Serialise b
  | none =>
    match sd.PMT with
    | some pmt => pmt.Serialise b
    | none => .ok (0, b)

/-- src/data_psi.go PSISectionSyntaxHeader.Serialise. -/
def PSISectionSyntaxHeader.Serialise (sh : PSISectionSyntaxHeader) (b : List Nat) :
    Except Err (Nat × List Nat) :=
  if b.length < 5 then .error .noRoomInBuffer
  else .ok (5, psiSectionSyntaxHeaderOut sh ++ b.drop 5)

/-- src/data_psi.go PSISectionSyntax.Serialise. -/
def PSISectionSyntax.Serialise (s : PSISectionSyntax) (b : List Nat) :
    Except Err (Nat × List Nat) :=
  if b.length = 0 then .error .noRoomInBuffer
  else do
    let (idx, b) ← match s.Header with
      | some sh => sh.Serialise b
      | none => .ok (0, b)
    match s.Data with
    | some sd => do
        let (n, sub) ← sd.Serialise (b.drop idx)
        .ok (idx + n, b.take idx ++ sub)
    | none => .ok (idx, b)

/-- src/data_psi.go PSISectionHeader.Serialise. -/
def PSISectionHeader.Serialise (h : PSISectionHeader) (b : List Nat) :
    Except Err (Nat × List Nat) :=
  if h.TableID = 255 then .ok (0, b)
  else if b.length < 3 then .error .noRoomInBuffer
  else .ok (3, psiSectionHeaderOut h ++ b.drop 3)

/-- src/data_psi.go PSISection.Serialise: the syntax section is written at
offset 3, the header is then serialised with the recomputed section length
(idx + 4 - 3), and for CRC32 table types the CRC of the bytes written so far
is appended.  The Go CRC write `b[idx] = ...` panics when the buffer is too
short; the model reports that as `Err.indexOutOfRange`. -/
def PSISection.Serialise (s : PSISection) (b : List Nat) :
    Except Err (Nat × List Nat) :=
  if s.Header.TableID = 255 then .ok (0, b)
  else if b.length ≤ 3 then .error .noRoomInBuffer
  else do
    let (idx, b) ← match s.Syntax with
      | some syn => do
          let (n, sub) ← syn.Serialise (b.drop 3)
          (.ok (3 + n, b.take 3 ++ sub) : Except Err (Nat × List Nat))
      | none => .ok (3, b)
    let hdr := { s.Header with SectionLength := (idx + 4 - 3) % 65536 }
    let (_, b) ← hdr.Serialise b
    if hasCRC32 s.Header.TableType then do
      let (crcData, _) ← nextBytes b idx 0
      let crc := computeCRC32 crcData
      if idx + 4 ≤ b.length then
        .ok (idx + 4, listCopy b idx (crc32OutBytes crc))
      else .error .indexOutOfRange
    else .ok (idx, b)

/-- The section loop of src/data_psi.go PSIData.Serialise. -/
def PSIDataSerialiseLoop : List PSISection → List Nat → Nat →
    Except Err (Nat × List Nat)
  | [], b, idx => .ok (idx, b)
  | s :: rest, b, idx => do
      let (n, sub) ← s.Serialise (b.drop idx)
      PSIDataSerialiseLoop rest (b.take idx ++ sub) (idx + n)

/-- src/data_psi.go PSIData.Serialise: room check, unimplemented non-zero
pointer field, pointer byte, sections, then 0xFF stuffing to the end of the
buffer. -/
def PSIData.Serialise (d : PSIData) (b : List Nat) : Except Err (Nat × List Nat) :=
  if b.length ≤ 1 then .error .noRoomInBuffer
  else if d.PointerField ≠ 0 then .error .pointerFieldUnimplemented
  else do
    let b := b.set 0 (d.PointerField % 256)
    let (idx, b) ← PSIDataSerialiseLoop d.Sections b 1
    .ok (max idx b.length, b.take idx ++ List.replicate (b.length - idx) 0xff)

/-- The bytes PSISectionSyntaxData.Serialise writes: a PAT body, else a PMT
body, else nothing. -/
def psiSectionSyntaxDataOut (sd : PSISectionSyntaxData) : List Nat :=
  match sd.PAT with
  | some pat => patBodyBytes pat
  | none =>
    match sd.PMT with
    | some pmt => pmtBodyBytes pmt
    | none => []

/-- The bytes PSISectionSyntax.Serialise writes: syntax header then table
body. -/
def psiSectionSyntaxOut (s : PSISectionSyntax) : List Nat :=
  (match s.Header with
   | some sh => psiSectionSyntaxHeaderOut sh
   | none => []) ++
  (match s.Data with
   | some sd => psiSectionSyntaxDataOut sd
   | none => [])

/-- The bytes PSISection.Serialise writes: nothing for the Null table ID,
otherwise the 3-byte header with the recomputed section length, the syntax
bytes, and for CRC32 table types the CRC32 of those bytes. -/
def psiSectionOut (s : PSISection) : List Nat :=
  if s.Header.TableID = 255 then []
  else
    let syn := match s.Syntax with
      | some sy => psiSectionSyntaxOut sy
      | none => []
    let body :=
      psiSectionHeaderOut
        { s.Header with SectionLength := (3 + syn.length + 4 - 3) % 65536 } ++ syn
    if hasCRC32 s.Header.TableType then
      body ++ crc32OutBytes (computeCRC32 body)
    else body

/-- The bytes the section loop of PSIData.Serialise writes: the sections'
bytes back to back, Null sections contributing nothing. -/
def psiSectionsOut (ss : List PSISection) : List Nat :=
  (ss.map psiSectionOut).flatten

/-! ### Demuxer (src/unnamed/part_000: Demuxer.NextData and
Demuxer.updateData; Packet, PacketPool, ProgramMap, ParseData and the packet
source are repository code that is not under src/, so they are modelled from
the spec).  The packet source (reader plus packet buffer) is modelled as the
list of packets still to be read. -/

/-- Packet (not under src/; modelled from the spec: the demuxer claims only
need the PID, the payload-unit-start-indicator and the payload). -/
structure Packet where
  PID : Nat := 0
  PayloadUnitStartIndicator : Bool := false
  Payload : List Nat := []
  deriving DecidableEq, Repr

/-- Data (not under src/; modelled from the spec: "a tagged record with
exactly one of PAT, PMT, NIT, SDT, EIT, TOT, PES set, plus PID, plus a
reference to the first packet of the group").  The PES payload is kept as raw
bytes. -/
structure Data where
  EIT : Option EITData := none
  FirstPacket : Option Packet := none
  NIT : Option NITData := none
  PAT : Option PATData := none
  PES : Option (List Nat) := none
  PID : Nat := 0
  PMT : Option PMTData := none
  SDT : Option SDTData := none
  TOT : Option TOTData := none
  deriving DecidableEq, Repr

/-- src/data_psi.go PSIData.toData: one emitted data unit per section of a
parsed table type, in section order.  The Go code dereferences
`s.Syntax.Data`, which parsing guarantees to be set for these table types;
the model chains through the options. -/
def PSIData.toData (d : PSIData) (firstPacket : Option Packet) (pid : Nat) : List Data :=
  d.Sections.foldl (fun ds s =>
    match s.Header.TableType with
    | .EIT => ds ++ [{ EIT := s.Syntax.bind fun sy => sy.Data.bind fun da => da.EIT,
                       FirstPacket := firstPacket, PID := pid }]
    | .NIT => ds ++ [{ FirstPacket := firstPacket,
                       NIT := s.Syntax.bind fun sy => sy.Data.bind fun da => da.NIT,
                       PID := pid }]
    | .PAT => ds ++ [{ FirstPacket := firstPacket,
                       PAT := s.Syntax.bind fun sy => sy.Data.bind fun da => da.PAT,
                       PID := pid }]
    | .PMT => ds ++ [{ FirstPacket := firstPacket, PID := pid,
                       PMT := s.Syntax.bind fun sy => sy.Data.bind fun da => da.PMT }]
    | .SDT => ds ++ [{ FirstPacket := firstPacket, PID := pid,
                       SDT := s.Syntax.bind fun sy => sy.Data.bind fun da => da.SDT }]
    | .TOT => ds ++ [{ FirstPacket := firstPacket, PID := pid,
                       TOT := s.Syntax.bind fun sy => sy.Data.bind fun da => da.TOT }]
    | _ => ds) []

/-- ProgramMap (not under src/; modelled from the spec: a side-table from
program map PID to program number), as an association list. -/
structure ProgramMap where
  p : List (Nat × Nat) := []
  deriving DecidableEq, Repr

/-- ProgramMap.Set: insert or overwrite the entry for a PID. -/
def ProgramMap.Set (pm : ProgramMap) (pid number : Nat) : ProgramMap :=
  if pm.p.any (fun kv => kv.1 == pid) then
    ⟨pm.p.map fun kv => if kv.1 == pid then (pid, number) else kv⟩
  else ⟨pm.p ++ [(pid, number)]⟩

/-- Whether a PID has an entry in the program map. -/
def ProgramMap.contains (pm : ProgramMap) (pid : Nat) : Bool :=
  pm.p.any (fun kv => kv.1 == pid)

/-- PacketPool (not under src/; modelled from the spec: per PID an
accumulating buffer of packets). -/
structure PacketPool where
  b : List (Nat × List Packet) := []
  deriving DecidableEq, Repr

/-- PacketPool.Add (not under src/; modelled from the spec: "If the packet's
PID is not being tracked or its PUSI is set, first flush any previously
accumulated buffer for that PID (emit it as a completed group); then start a
new buffer seeded by this packet ... If PUSI is not set, append the payload
to the existing buffer; emit nothing"). -/
def PacketPool.Add (pp : PacketPool) (p : Packet) : Option (List Packet) × PacketPool :=
  match pp.b.find? (fun kv => kv.1 == p.PID) with
  | none => (none, ⟨pp.b ++ [(p.PID, [p])]⟩)
  | some kv =>
    if p.PayloadUnitStartIndicator then
      (some kv.2, ⟨pp.b.map fun e => if e.1 == p.PID then (p.PID, [p]) else e⟩)
    else
      (none, ⟨pp.b.map fun e => if e.1 == p.PID then (p.PID, e.2 ++ [p]) else e⟩)

/-- PacketPool.dump (not under src/; modelled from the spec: "at end-of-stream,
emit each PID's remaining buffer in deterministic order (by PID ascending)");
one group is popped per call, as in the demuxer's dump loop. -/
def PacketPool.dump (pp : PacketPool) : Option (List Packet × PacketPool) :=
  match pp.b.foldl
      (fun acc kv => match acc with
        | none => some kv
        | some m => if kv.1 < m.1 then some kv else m) none with
  | none => none
  | some m => some (m.2, ⟨pp.b.filter fun e => !(e.1 == m.1)⟩)

/-- IsPSIPayload (not under src/; modelled from the spec classifier: PID 0 is
the PAT, 0x10-0x14 and 0x1E-0x1F are DVB service information PIDs, and any
PID learned in the program map carries a PMT). -/
def IsPSIPayload (pid : Nat) (pm : ProgramMap) : Bool :=
  pid = 0 ∨ (0x10 ≤ pid ∧ pid ≤ 0x14) ∨ pid = 0x1e ∨ pid = 0x1f ∨ pm.contains pid

/-- isPESPayload (not under src/; modelled from the spec: the PES start-code
prefix 0x00 0x00 0x01). -/
def isPESPayload (bs : List Nat) : Bool :=
  bs.take 3 == [0, 0, 1]

/-- ParseData (not under src/; modelled from the spec classifier, without the
optional custom packets parser): the CAT PID is ignored, PSI PIDs go through
the PSI section engine and `toData`, payloads with the PES start prefix are
emitted as one PES unit, anything else is discarded.  The payload of a group
is the concatenation of its packets' payloads. -/
def ParseData (fuel : Nat) (ps : List Packet) (pm : ProgramMap) :
    Except Err (List Data) :=
  let pid := (ps.headD {}).PID
  if pid = 1 then pure []
  else
    let payload := (ps.map Packet.Payload).flatten
    if IsPSIPayload pid pm then do
      let (psiD, _) ← parsePSIData payload fuel 0
      pure (psiD.toData ps.head? pid)
    else if isPESPayload payload then
      pure [{ FirstPacket := ps.head?, PES := some payload, PID := pid }]
    else pure []

/-- Demuxer state (src/unnamed/part_000 Demuxer), without the reader: the
buffered data units, the packet pool and the learned program map. -/
structure Demuxer where
  dataBuffer : List Data := []
  packetPool : PacketPool := {}
  programMap : ProgramMap := {}
  deriving DecidableEq, Repr

/-- One step of the program-map update in src/unnamed/part_000
Demuxer.updateData: a program is learned only when its program number is
non-zero (program number 0 is reserved for the NIT). -/
def updateProgramMapFromProgram (pm : ProgramMap) (pgm : PATProgram) : ProgramMap :=
  if pgm.ProgramNumber > 0 then pm.Set pgm.ProgramMapID pgm.ProgramNumber else pm

/-- The per-data-unit program-map update of src/unnamed/part_000
Demuxer.updateData: only PAT units contribute. -/
def updateProgramMapFromData (pm : ProgramMap) (v : Data) : ProgramMap :=
  match v.PAT with
  | some pat => pat.Programs.foldl updateProgramMapFromProgram pm
  | none => pm

/-- src/unnamed/part_000 Demuxer.updateData: when there are data units, the
first is returned, the rest are appended to the data buffer, and the program
map learns every PAT program with a non-zero program number. -/
def Demuxer.updateData (dmx : Demuxer) (ds : List Data) : Option Data × Demuxer :=
  match ds with
  | [] => (none, dmx)
  | d :: rest =>
    let dmx := { dmx with dataBuffer := dmx.dataBuffer ++ rest }
    let pm := ds.foldl updateProgramMapFromData dmx.programMap
    (some d, { dmx with programMap := pm })

/-- The end-of-stream dump loop of src/unnamed/part_000 Demuxer.NextData:
keep dumping per-PID groups out of the pool, silently skipping groups that
fail to parse, until a data unit is produced or the pool is empty.  The
carried `lastErr` models the Go `err` variable that is returned when the loop
exits without data (initially ErrNoMorePackets, overwritten by the last
ParseData outcome). -/
def Demuxer.nextDataDumpLoop : Nat → Demuxer → Option Err →
    (Option Data × Option Err) × Demuxer
  | 0, dmx, _ => ((none, some .fuelExhausted), dmx)
  | fuel + 1, dmx, lastErr =>
    match dmx.packetPool.dump with
    | none => ((none, lastErr), dmx)
    | some (ps, pool) =>
      let dmx := { dmx with packetPool := pool }
      match ParseData fuel ps dmx.programMap with
      | .error e => Demuxer.nextDataDumpLoop fuel dmx (some e)
      | .ok ds =>
        match dmx.updateData ds with
        | (some d, dmx) => ((some d, none), dmx)
        | (none, dmx) => Demuxer.nextDataDumpLoop fuel dmx none

/-- Model-only error standing for src/unnamed/part_000 ErrNoMorePackets. -/
def ErrNoMorePackets : Err := .noBytesLeft

/-- The packet loop of src/unnamed/part_000 Demuxer.NextData: read packets,
feed them to the pool, and when a group completes parse it and hand the
resulting units to updateData; a parse error is returned to the caller.  At
the end of the input the pool is dumped.  Returns the Go `(d, err)` pair, the
new demuxer state and the packets that remain unread. -/
def Demuxer.nextDataPacketLoop (fuel : Nat) :
    List Packet → Demuxer → (Option Data × Option Err) × Demuxer × List Packet
  | [], dmx =>
    let (r, dmx) := Demuxer.nextDataDumpLoop fuel dmx (some ErrNoMorePackets)
    (r, dmx, [])
  | p :: rest, dmx =>
    match dmx.packetPool.Add p with
    | (none, pool) => Demuxer.nextDataPacketLoop fuel rest { dmx with packetPool := pool }
    | (some ps, pool) =>
      let dmx := { dmx with packetPool := pool }
      match ParseData fuel ps dmx.programMap with
      | .error e => ((none, some e), dmx, rest)
      | .ok ds =>
        match dmx.updateData ds with
        | (some d, dmx) => ((some d, none), dmx, rest)
        | (none, dmx) => Demuxer.nextDataPacketLoop fuel rest dmx

/-- src/unnamed/part_000 Demuxer.NextData: pop the data buffer if it is
non-empty, otherwise run the packet loop. -/
def Demuxer.NextData (fuel : Nat) (dmx : Demuxer) (input : List Packet) :
    (Option Data × Option Err) × Demuxer × List Packet :=
  match dmx.dataBuffer with
  | d :: rest => ((some d, none), { dmx with dataBuffer := rest }, input)
  | [] => Demuxer.nextDataPacketLoop fuel input dmx

/-! ### Concrete inputs used by witnesses and counterexamples -/

/-- A user-defined descriptor of declared length 2, as parsed from the
descriptor loop bytes 0x80 0x02 0xAA 0xBB. -/
def userDefinedDescriptor2 : Descriptor :=
  { Tag := 0x80, Length := 2, UserDefined := [0xAA, 0xBB], originalBytes := [0xAA, 0xBB] }

/-- A user-defined descriptor of declared length 254 (the maximal-length
regime where the Go uint8 count `Length + 2` wraps). -/
def userDefinedDescriptor254 : Descriptor :=
  { Tag := 0x80, Length := 0xfe, UserDefined := List.replicate 254 0xAA,
    originalBytes := List.replicate 254 0xAA }

/-- The 4 bytes at `offSecEnd` read as a big-endian 32-bit value (the claim's
"the 4 bytes at offset section_end - 4"). -/
def storedCRC32At (bs : List Nat) (offSecEnd : Nat) : Nat :=
  (bs.getD offSecEnd 0) <<< 24 ||| (bs.getD (offSecEnd + 1) 0) <<< 16 |||
  (bs.getD (offSecEnd + 2) 0) <<< 8 ||| bs.getD (offSecEnd + 3) 0

/-- A valid TOT section: 3-byte header (table ID 0x73, section length 11),
5-byte DVB time, empty descriptor loop, and the matching CRC32. -/
def totSectionBytes : List Nat :=
  [0x73, 0xF0, 0x0B, 0xC0, 0x79, 0x12, 0x34, 0x56, 0x00, 0x00, 0x00, 0x0C, 0x20, 0x4E]

/-- The same TOT section with its trailing CRC32 replaced by 0x00000020. -/
def totSectionBytesBadCRC : List Nat :=
  [0x73, 0xF0, 0x0B, 0xC0, 0x79, 0x12, 0x34, 0x56, 0x00, 0x00, 0x00, 0x00, 0x00, 0x20]

/-- The parsed header of `totSectionBytes`. -/
def totSectionHeader : PSISectionHeader :=
  { PrivateBit := true, SectionLength := 11, SectionSyntaxIndicator := true,
    TableID := 0x73, TableType := .TOT }

/-- The parsed table body of `totSectionBytes`. -/
def totSectionData : TOTData :=
  { Descriptors := [],
    UTCTime := { Year := 1993, Month := 10, Day := 13,
                 Hour := 12, Minute := 34, Second := 56 } }

/-- The parsed syntax of `totSectionBytes`. -/
def totSectionSyntax : PSISectionSyntax :=
  { Data := some { TOT := some totSectionData }, Header := none }

/-- A PSI packet carrying the CRC-corrupted TOT payload. -/
def badCRCPacket : Packet :=
  { PID := 0x10, PayloadUnitStartIndicator := true,
    Payload := 0x00 :: totSectionBytesBadCRC }

/-- A packet on the same PID whose payload-unit-start flushes the pool. -/
def flushPacket : Packet :=
  { PID := 0x10, PayloadUnitStartIndicator := true, Payload := [] }

/-- A concrete PAT body: one positive-numbered program and the NIT
reference. -/
def patUnitBody : PATData :=
  { Programs := [{ ProgramMapID := 0x1098, ProgramNumber := 257 },
                 { ProgramMapID := 0x10, ProgramNumber := 0 }],
    TransportStreamID := 1 }

/-- The data unit carrying `patUnitBody`. -/
def patDataUnit : Data := { PAT := some patUnitBody }

/-- A PSI packet whose payload carries two back-to-back TOT sections. -/
def twoTOTPacket : Packet :=
  { PID := 0x10, PayloadUnitStartIndicator := true,
    Payload := 0x00 :: totSectionBytes ++ totSectionBytes }

/-- The data unit produced for each of the two TOT sections of
`twoTOTPacket`. -/
def twoTOTDataUnit : Data :=
  { FirstPacket := some twoTOTPacket, PID := 0x10, TOT := some totSectionData }

/-- The parsed TOT section as a PSISection. -/
def totPSISection : PSISection :=
  { Header := totSectionHeader, Syntax := some totSectionSyntax }

/-- A PSIData holding the parsed TOT section with a zero pointer field. -/
def psiTOTData : PSIData := { Sections := [totPSISection] }

/-- The bytes PSIData.Serialise writes for `psiTOTData` into a 12-byte
buffer: pointer field, 3-byte header, CRC32, then 0xFF stuffing. -/
def psiTOTOut : List Nat :=
  [0x00, 0x73, 0xF0, 0x04, 0x05, 0x85, 0x9E, 0xE4, 0xFF, 0xFF, 0xFF, 0xFF]

/-! ## Theorems -/

set_option maxRecDepth 8192

/-- For a value below `2 ^ (w + 1)`, the top bit is set exactly when the value
is at least `2 ^ w`. -/
theorem testBit_top {w o : Nat} (ho : o < 2 ^ (w + 1)) :
    o.testBit w = decide (2 ^ w ≤ o) := by
  rw [Nat.testBit_to_div_mod]
  rcases Nat.lt_or_ge o (2 ^ w) with h | h
  · rw [Nat.div_eq_of_lt h]
    simp [Nat.not_le.mpr h]
  · have h1 : o / 2 ^ w = 1 := by
      apply Nat.div_eq_of_lt_le (by simpa using h)
      simpa [Nat.pow_succ, Nat.mul_comm] using ho
    simp [h1, h]

/-- The source CRC32 bit step agrees with the reference bit step on in-range
register/byte pairs and stays in range. -/
theorem crc32Bit_eq_ref {o b : Nat} (ho : o < 2 ^ 32) (hb : b < 2 ^ 8) :
    crc32Bit (o, b) = crc32RefBit (o, b) ∧
    (crc32Bit (o, b)).1 < 2 ^ 32 ∧ (crc32Bit (o, b)).2 < 2 ^ 8 := by
  have htop : o.testBit 31 = decide (0x80000000 ≤ o) := testBit_top (by norm_num at ho ⊢; omega)
  have hbtop : b.testBit 7 = decide (0x80 ≤ b) := testBit_top (by norm_num at hb ⊢; omega)
  have hshift : o <<< 1 = 2 * o := by
    rw [Nat.shiftLeft_eq]; ring
  have hbshift : b <<< 1 = 2 * b := by
    rw [Nat.shiftLeft_eq]; ring
  have hmod : (2 * o) % 4294967296 = (2 * o) % 2 ^ 32 := by norm_num
  have hbmod : (2 * b) % 256 = (2 * b) % 2 ^ 8 := by norm_num
  have hlt : (2 * o) % 2 ^ 32 < 2 ^ 32 := Nat.mod_lt _ (by norm_num)
  have hblt : (2 * b) % 2 ^ 8 < 2 ^ 8 := Nat.mod_lt _ (by norm_num)
  have hxor : ((2 * o) % 2 ^ 32) ^^^ 0x04C11DB7 < 2 ^ 32 :=
    Nat.xor_lt_two_pow hlt (by norm_num)
  refine ⟨?_, ?_, ?_⟩
  · simp only [crc32Bit, crc32RefBit, htop, hbtop, hshift, hbshift, hmod, hbmod]
  · simp only [crc32Bit, hshift, hmod]
    split <;> [exact hxor; exact hlt]
  · simp only [crc32Bit, hbshift, hbmod]
    exact hblt

/-- The `n`-fold source bit step agrees with the reference and stays in
range. -/
theorem crc32Bits_eq_ref (n : Nat) :
    ∀ p : Nat × Nat, p.1 < 2 ^ 32 → p.2 < 2 ^ 8 →
      crc32Bits n p = crc32RefBits n p ∧
      (crc32Bits n p).1 < 2 ^ 32 ∧ (crc32Bits n p).2 < 2 ^ 8 := by
  induction n with
  | zero => intro p h1 h2; exact ⟨rfl, h1, h2⟩
  | succ n ih =>
    intro p h1 h2
    obtain ⟨heq, hr1, hr2⟩ := crc32Bit_eq_ref h1 h2
    have := ih (crc32Bit p) hr1 hr2
    simp only [crc32Bits, crc32RefBits, ← heq]
    exact this

/-- Folding the source byte step agrees with the reference for any in-range
initial register. -/
theorem crc32_foldl_eq_ref :
    ∀ (bs : List Nat) (o : Nat), o < 2 ^ 32 → (∀ b ∈ bs, b < 256) →
      bs.foldl (fun o b => (crc32Bits 8 (o, b)).1) o =
      bs.foldl (fun r b => (crc32RefBits 8 (r, b)).1) o := by
  intro bs
  induction bs with
  | nil => intro o _ _; rw [List.foldl_nil, List.foldl_nil]
  | cons b bs ih =>
    intro o ho hb
    have hb0 : b < 2 ^ 8 := by
      have h := hb b (List.mem_cons_self b bs)
      have h2 : (2 : Nat) ^ 8 = 256 := by norm_num
      omega
    obtain ⟨heq, hr1, _⟩ := crc32Bits_eq_ref 8 (o, b) ho hb0
    rw [List.foldl_cons, List.foldl_cons, ← heq]
    exact ih _ hr1 fun x hx => hb x (List.mem_cons_of_mem _ hx)

/-- Claim C1: `computeCRC32` implements the MPEG-2 CRC32 reference algorithm:
for every byte sequence, starting from register 0xFFFFFFFF, it processes each
byte MSB-first for 8 bits, shifting the 32-bit register left and XOR-ing the
polynomial 0x04C11DB7 exactly when the top bit of the register differs from
the top bit of the current (shifted) byte, with no bit reflection and no
final XOR. -/
theorem computeCRC32_implements_reference (bs : List Nat)
    (hb : ∀ b ∈ bs, b < 256) : computeCRC32 bs = crc32Reference bs :=
  crc32_foldl_eq_ref bs 0xffffffff (by norm_num) hb

/-- Witness for C1 at a concrete byte sequence. -/
theorem computeCRC32_implements_reference_witness :
    (∀ b ∈ [0x73, 0xF0, 0x0B, 0xC0, 0x79], b < 256) ∧
    computeCRC32 [0x73, 0xF0, 0x0B, 0xC0, 0x79] =
      crc32Reference [0x73, 0xF0, 0x0B, 0xC0, 0x79] :=
  ⟨by decide, computeCRC32_implements_reference _ (by decide)⟩

/-- Claim C4: table-ID classification is a total function agreeing with the
normative map: every integer 0-255 maps to exactly one table type, 0x00 to
PAT, 0x02 to PMT, 0x40-0x41 to NIT, 0x42 and 0x46 to SDT, 0x4A to BAT,
0x4E-0x6F to EIT, 0x70 to TDT, 0x71 to RST, 0x72 to ST, 0x73 to TOT, 0x7E to
DIT, 0x7F to SIT, 0xFF to Null, and every other value to Unknown. -/
theorem psiTableType_agrees_normative (n : Nat) (h : n < 256) :
    psiTableType n = psiTableTypeNormative n := by
  revert h; revert n; decide

/-- Witness for C4 at a concrete table ID. -/
theorem psiTableType_agrees_normative_witness :
    0x4a < 256 ∧ psiTableType 0x4a = psiTableTypeNormative 0x4a :=
  ⟨by decide, psiTableType_agrees_normative 0x4a (by decide)⟩

/-! ### Plumbing lemmas for the Except monad and the bytes iterator -/

/-- Bind on a successful Except value. -/
theorem bindOk {α β : Type} (a : α) (f : α → Except Err β) :
    (Except.ok a >>= f) = f a := rfl

/-- Bind on a failed Except value. -/
theorem bindErr {α β : Type} (e : Err) (f : α → Except Err β) :
    ((Except.error e : Except Err α) >>= f) = Except.error e := rfl

/-- Bind on a pure Except value. -/
theorem bindPure {α β : Type} (a : α) (f : α → Except Err β) :
    ((pure a : Except Err α) >>= f) = f a := rfl

/-- Characterisation of a successful `nextBytes`. -/
theorem nextBytes_ok {bs cs : List Nat} {n off off2 : Nat}
    (h : nextBytes bs n off = .ok (cs, off2)) :
    off + n ≤ bs.length ∧ cs = (bs.drop off).take n ∧ off2 = off + n := by
  unfold nextBytes at h
  split at h
  · simp only [Except.ok.injEq, Prod.mk.injEq] at h
    exact ⟨by assumption, h.1.symm, h.2.symm⟩
  · exact absurd h (by simp)

/-- Characterisation of a successful `nextByte`. -/
theorem nextByte_ok {bs : List Nat} {off b off2 : Nat}
    (h : nextByte bs off = .ok (b, off2)) :
    off < bs.length ∧ b = bs.getD off 0 ∧ off2 = off + 1 := by
  unfold nextByte at h
  split at h
  case isTrue hlt =>
    simp only [Except.ok.injEq, Prod.mk.injEq] at h
    refine ⟨hlt, ?_, h.2.symm⟩
    rw [← h.1, List.get_eq_getElem, List.getD_eq_getElem?_getD, List.getElem?_eq_getElem hlt]
    rfl
  · exact absurd h (by simp)

/-- Reading inside a `take` of a `drop` is reading the underlying list. -/
theorem getD_drop_take {bs : List Nat} {m n i : Nat} (hi : i < n) :
    ((bs.drop m).take n).getD i 0 = bs.getD (m + i) 0 := by
  rw [List.getD_eq_getElem?_getD, List.getD_eq_getElem?_getD,
    List.getElem?_take_of_lt hi, List.getElem?_drop]

/-! ### The descriptor loop invariant (claims C5 and C6) -/

/-- The tag dispatch only fills a variant field: the Tag, Length and retained
original bytes of the descriptor are untouched. -/
theorem parseDescriptorPayload_fields {bs : List Nat} {fuel offEnd : Nat}
    {d : Descriptor} {off : Nat} {d' : Descriptor} {off2 : Nat}
    (h : parseDescriptorPayload bs fuel offEnd d off = .ok (d', off2)) :
    d'.Tag = d.Tag ∧ d'.Length = d.Length ∧ d'.originalBytes = d.originalBytes := by
  unfold parseDescriptorPayload at h
  cases hv : parseDescriptorVariant bs fuel offEnd d.Tag d.Length off with
  | error e => rw [hv, bindErr] at h; exact absurd h (by simp)
  | ok v =>
    obtain ⟨p, off1⟩ := v
    rw [hv, bindOk] at h
    dsimp only at h
    simp only [pure, Except.pure, Except.ok.injEq, Prod.mk.injEq] at h
    obtain ⟨hd, _⟩ := h
    subst hd
    cases p <;> simp [Descriptor.withPayload]

/-- The invariant of the descriptor loop: on success the emitted descriptors
extend the accumulator, the cursor advances by exactly 2 + declared length
per descriptor, the loop runs to (at least) the declared end, and every
emitted descriptor records its tag byte, length byte and a copy of its
declared body bytes from the input. -/
theorem parseDescriptorsLoop_spec (bs : List Nat) :
    ∀ fuel offsetEnd off acc ds off2,
      parseDescriptorsLoop bs fuel offsetEnd off acc = .ok (ds, off2) →
      ∃ tail, ds = acc ++ tail ∧ off2 = off + descriptorsLengthSum tail ∧
        (offsetEnd ≤ off → tail = []) ∧
        (off < offsetEnd → offsetEnd ≤ off2) ∧
        ∀ d ∈ tail, d.originalBytes.length = d.Length ∧
          ∃ k, off ≤ k ∧ k + 2 + d.Length ≤ bs.length ∧
            bs.getD k 0 = d.Tag ∧ bs.getD (k + 1) 0 = d.Length ∧
            d.originalBytes = (bs.drop (k + 2)).take d.Length := by
  intro fuel
  induction fuel with
  | zero =>
    intro offsetEnd off acc ds off2 h
    exact absurd h (by simp [parseDescriptorsLoop])
  | succ fuel ih =>
    intro offsetEnd off acc ds off2 h
    rw [parseDescriptorsLoop] at h
    split at h
    case isFalse hge =>
      simp only [pure, Except.pure, Except.ok.injEq, Prod.mk.injEq] at h
      refine ⟨[], by simp [h.1.symm], by simp [descriptorsLengthSum, h.2.symm], fun _ => rfl,
        fun hlt => absurd hlt (by omega), by simp⟩
    case isTrue hlt =>
      cases hnb : nextBytes bs 2 off with
      | error e => rw [hnb, bindErr] at h; exact absurd h (by simp)
      | ok v =>
        obtain ⟨cs, off1⟩ := v
        rw [hnb, bindOk] at h
        dsimp only at h
        obtain ⟨hle2, hcs, hoff1⟩ := nextBytes_ok hnb
        subst hoff1
        split at h
        case isTrue hL =>
          cases hob : nextBytes bs (cs.getD 1 0) (off + 2) with
          | error e => rw [hob, bindErr] at h; exact absurd h (by simp)
          | ok w =>
            obtain ⟨origBytes, offw⟩ := w
            rw [hob, bindOk] at h
            dsimp only at h
            obtain ⟨hleL, horig, _⟩ := nextBytes_ok hob
            cases hpp : parseDescriptorPayload bs fuel (off + 2 + cs.getD 1 0)
                { Length := cs.getD 1 0, Tag := cs.getD 0 0, originalBytes := origBytes }
                (off + 2) with
            | error e => rw [hpp, bindErr] at h; exact absurd h (by simp)
            | ok u =>
              obtain ⟨d', offu⟩ := u
              rw [hpp, bindOk] at h
              dsimp only at h
              obtain ⟨htag, hlen, horig'⟩ := parseDescriptorPayload_fields hpp
              dsimp only at htag hlen horig'
              obtain ⟨tail', hds, hoff2, _, hbound, hmem⟩ :=
                ih offsetEnd (off + 2 + cs.getD 1 0) (acc ++ [d']) ds off2 h
              refine ⟨d' :: tail', by simpa using hds, ?_, fun hge => absurd hlt (by omega),
                ?_, ?_⟩
              · simp only [descriptorsLengthSum, List.map_cons, List.sum_cons] at hoff2 ⊢
                omega
              · intro _
                by_cases hc : off + 2 + cs.getD 1 0 < offsetEnd
                · exact hbound hc
                · have : descriptorsLengthSum tail' ≥ 0 := Nat.zero_le _
                  omega
              · intro d hd
                rcases List.mem_cons.mp hd with rfl | hd
                · refine ⟨?_, off, Nat.le_refl _, ?_, ?_, ?_, ?_⟩
                  · rw [horig', horig, hlen]
                    simp only [List.length_take, List.length_drop]
                    omega
                  · omega
                  · rw [htag]
                    simp only [hcs]
                    rw [getD_drop_take (by omega)]
                    simp
                  · rw [hlen]
                    simp only [hcs]
                    rw [getD_drop_take (by omega)]
                  · rw [horig', horig, hlen]
                · obtain ⟨h1, k, hk1, hk2, hk3, hk4, hk5⟩ := hmem d hd
                  exact ⟨h1, k, by omega, hk2, hk3, hk4, hk5⟩
        case isFalse hL =>
          have hL0 : cs.getD 1 0 = 0 := by omega
          obtain ⟨tail', hds, hoff2, _, hbound, hmem⟩ :=
            ih offsetEnd (off + 2) (acc ++ [{ Length := cs.getD 1 0, Tag := cs.getD 0 0 }]) ds off2 h
          refine ⟨{ Length := cs.getD 1 0, Tag := cs.getD 0 0 } :: tail', by simpa using hds,
            ?_, fun hge => absurd hlt (by omega), ?_, ?_⟩
          · simp only [descriptorsLengthSum, List.map_cons, List.sum_cons] at hoff2 ⊢
            omega
          · intro _
            by_cases hc : off + 2 < offsetEnd
            · exact hbound hc
            · omega
          · intro d hd
            rcases List.mem_cons.mp hd with rfl | hd
            · refine ⟨?_, off, Nat.le_refl _, ?_, ?_, ?_, ?_⟩
              · try dsimp only
                rw [hL0]
                rfl
              · try dsimp only
                omega
              · try dsimp only
                simp only [hcs]
                rw [getD_drop_take (by omega)]
                simp
              · try dsimp only
                simp only [hcs]
                rw [getD_drop_take (by omega)]
              · try dsimp only
                rw [hL0]
                simp
            · obtain ⟨h1, k, hk1, hk2, hk3, hk4, hk5⟩ := hmem d hd
              exact ⟨h1, k, by omega, hk2, hk3, hk4, hk5⟩

/-- Claim C5 (amended): for every descriptor loop successfully parsed by
`parseDescriptors`, the cursor advances by exactly 2 + declared length per
descriptor regardless of what the tag-dispatched decoder consumed — so the
final cursor sits at loop-field start + 2 + Σ (2 + Length) — and
Σ (2 + Length) over the emitted descriptors is at least the declared 12-bit
loop length.  (It equals the declared loop length only when the descriptors
tile it exactly; a last descriptor whose declared length overruns the loop
end makes the sum strictly larger, so the equality claimed originally does
not hold in general.) -/
theorem parseDescriptors_cursor_sum (bs : List Nat) (fuel off : Nat)
    (ds : List Descriptor) (off2 : Nat)
    (h : parseDescriptors bs fuel off = .ok (ds, off2)) :
    off2 = off + 2 + descriptorsLengthSum ds ∧
    ((bs.getD off 0) &&& 0xf) <<< 8 ||| bs.getD (off + 1) 0 ≤ descriptorsLengthSum ds := by
  unfold parseDescriptors at h
  cases hnb : nextBytes bs 2 off with
  | error e => rw [hnb, bindErr] at h; exact absurd h (by simp)
  | ok v =>
    obtain ⟨cs, off1⟩ := v
    rw [hnb, bindOk] at h
    dsimp only at h
    obtain ⟨hle2, hcs, hoff1⟩ := nextBytes_ok hnb
    subst hoff1
    have hb0 : cs.getD 0 0 = bs.getD off 0 := by
      simp only [hcs]
      rw [getD_drop_take (by omega)]
      simp
    have hb1 : cs.getD 1 0 = bs.getD (off + 1) 0 := by
      simp only [hcs]
      rw [getD_drop_take (by omega)]
    rw [← hb0, ← hb1]
    split at h
    case isTrue hne =>
      obtain ⟨tail, hds, hoff2, _, hbound, _⟩ :=
        parseDescriptorsLoop_spec bs fuel _ _ _ _ _ h
      rw [List.nil_append] at hds
      subst hds
      refine ⟨by omega, ?_⟩
      have := hbound (by omega)
      omega
    case isFalse hne =>
      simp only [pure, Except.pure, Except.ok.injEq, Prod.mk.injEq] at h
      obtain ⟨hds, hoff⟩ := h
      subst hds
      simp only [descriptorsLengthSum, List.map_nil, List.sum_nil]
      omega

/-- Counterexample to C5 as stated: in the descriptor loop
0x00 0x03 (declared loop length 3) 0x80 0x02 0xAA 0xBB, the single emitted
descriptor has declared length 2, so Σ (2 + Length) = 4 while the declared
loop length is 3: parsing succeeds, yet the sum differs from the declared
loop length. -/
theorem parseDescriptors_sum_counterexample :
    (parseDescriptors [0x00, 0x03, 0x80, 0x02, 0xAA, 0xBB] 10 0).map
        (fun p => descriptorsLengthSum p.1) = .ok 4 ∧
    (((([0x00, 0x03, 0x80, 0x02, 0xAA, 0xBB] : List Nat).getD 0 0) &&& 0xf) <<< 8 |||
      ([0x00, 0x03, 0x80, 0x02, 0xAA, 0xBB] : List Nat).getD 1 0) = 3 ∧
    (4 : Nat) ≠ 3 := by decide

/-- Witness for C5 (amended) at a concrete, exactly tiled descriptor loop. -/
theorem parseDescriptors_cursor_sum_witness :
    parseDescriptors [0x00, 0x04, 0x80, 0x02, 0xAA, 0xBB] 10 0 =
      .ok ([userDefinedDescriptor2], 6) ∧
    (6 = 0 + 2 + descriptorsLengthSum [userDefinedDescriptor2] ∧
     ((([0x00, 0x04, 0x80, 0x02, 0xAA, 0xBB] : List Nat).getD 0 0) &&& 0xf) <<< 8 |||
       ([0x00, 0x04, 0x80, 0x02, 0xAA, 0xBB] : List Nat).getD 1 0 ≤
       descriptorsLengthSum [userDefinedDescriptor2]) :=
  ⟨by decide, parseDescriptors_cursor_sum _ 10 0 _ 6 (by decide)⟩

/-- The byte-level effect of src/descriptor.go Descriptor.Serialise on a
buffer with enough room, for a descriptor whose retained bytes match its
declared length. -/
theorem Descriptor_Serialise_eq (d : Descriptor) (b2 : List Nat) (h3 : 3 ≤ b2.length)
    (hroom : d.Length + 2 ≤ b2.length) (horig : d.originalBytes.length = d.Length) :
    d.Serialise b2 = .ok ((d.Length + 2) % 256,
      d.Tag :: d.Length :: (d.originalBytes ++ b2.drop (2 + d.Length))) := by
  rcases b2 with _ | ⟨x, b2⟩
  · simp at h3
  rcases b2 with _ | ⟨y, b2⟩
  · simp at h3
  have hset : ((x :: y :: b2).set 0 d.Tag).set 1 d.Length = d.Tag :: d.Length :: b2 := by
    simp [List.set]
  have hb2 : d.originalBytes.length ≤ b2.length := by
    simp only [List.length_cons] at hroom
    omega
  have hdrop : (d.Tag :: d.Length :: b2).drop (2 + d.originalBytes.length) =
      b2.drop d.Length := by
    rw [show 2 + d.originalBytes.length = d.originalBytes.length + 1 + 1 by omega]
    simp only [List.drop_succ_cons]
    rw [horig]
  have hdrop2 : (x :: y :: b2).drop (2 + d.Length) = b2.drop d.Length := by
    rw [show 2 + d.Length = d.Length + 1 + 1 by omega]
    simp only [List.drop_succ_cons]
  unfold Descriptor.Serialise
  rw [if_neg (by
    simp only [List.length_cons] at hroom h3
    simp only [List.length_cons, not_or]
    omega)]
  dsimp only
  rw [hset]
  unfold listCopy
  rw [hdrop, hdrop2]
  simp only [List.take_succ_cons, List.take_zero, List.length_cons]
  rw [show b2.length + 1 + 1 - 2 = b2.length by omega, List.take_of_length_le hb2]
  rfl

/-- Claim C6 (amended): every descriptor parsed by `parseDescriptors` retains
a private copy of its declared body bytes (its tag byte, length byte and the
`Length` body bytes of the input), and `Descriptor.Serialise` into a buffer
with room for at least 3 and at least `Length + 2` bytes writes back exactly
the tag byte, the length byte and those original body bytes, returning
`(Length + 2) % 256` — the Go count is computed on uint8, so it equals
`Length + 2` exactly when `Length ≤ 253`. -/
theorem parseDescriptors_roundtrip (bs : List Nat) (fuel off : Nat)
    (ds : List Descriptor) (off2 : Nat)
    (h : parseDescriptors bs fuel off = .ok (ds, off2)) :
    ∀ d ∈ ds,
      d.originalBytes.length = d.Length ∧
      (∃ k, k + 2 + d.Length ≤ bs.length ∧ bs.getD k 0 = d.Tag ∧
        bs.getD (k + 1) 0 = d.Length ∧
        d.originalBytes = (bs.drop (k + 2)).take d.Length) ∧
      ∀ b2 : List Nat, 3 ≤ b2.length → d.Length + 2 ≤ b2.length →
        d.Serialise b2 = .ok ((d.Length + 2) % 256,
          d.Tag :: d.Length :: (d.originalBytes ++ b2.drop (2 + d.Length))) := by
  unfold parseDescriptors at h
  cases hnb : nextBytes bs 2 off with
  | error e => rw [hnb, bindErr] at h; exact absurd h (by simp)
  | ok v =>
    obtain ⟨cs, off1⟩ := v
    rw [hnb, bindOk] at h
    dsimp only at h
    split at h
    case isTrue hne =>
      obtain ⟨tail, hds, _, _, _, hmem⟩ := parseDescriptorsLoop_spec bs fuel _ _ _ _ _ h
      rw [List.nil_append] at hds
      subst hds
      intro d hd
      obtain ⟨horig, k, _, hk2, hk3, hk4, hk5⟩ := hmem d hd
      exact ⟨horig, ⟨k, hk2, hk3, hk4, hk5⟩,
        fun b2 h3 hroom => Descriptor_Serialise_eq d b2 h3 hroom horig⟩
    case isFalse hne =>
      simp only [pure, Except.pure, Except.ok.injEq, Prod.mk.injEq] at h
      obtain ⟨hds, _⟩ := h
      subst hds
      intro d hd
      exact absurd hd (List.not_mem_nil d)

/-- Counterexample to C6 as stated: the descriptor of declared length 254
parsed from a 256-byte loop round-trips its bytes, but Serialise returns
(254 + 2) computed on uint8, i.e. 0, not length + 2 = 256. -/
theorem descriptor_serialise_return_counterexample :
    parseDescriptors ([0x01, 0x00, 0x80, 0xfe] ++ List.replicate 254 0xAA) 10 0 =
      .ok ([userDefinedDescriptor254], 258) ∧
    userDefinedDescriptor254.Serialise (List.replicate 256 0) =
      .ok (0, 0x80 :: 0xfe :: List.replicate 254 0xAA) ∧
    (0 : Nat) ≠ 254 + 2 := by decide

/-- Witness for C6 (amended) at a concrete descriptor loop and buffer. -/
theorem parseDescriptors_roundtrip_witness :
    parseDescriptors [0x00, 0x04, 0x80, 0x02, 0xAA, 0xBB] 10 0 =
      .ok ([userDefinedDescriptor2], 6) ∧
    (∀ d ∈ [userDefinedDescriptor2],
      d.originalBytes.length = d.Length ∧
      (∃ k, k + 2 + d.Length ≤ ([0x00, 0x04, 0x80, 0x02, 0xAA, 0xBB] : List Nat).length ∧
        ([0x00, 0x04, 0x80, 0x02, 0xAA, 0xBB] : List Nat).getD k 0 = d.Tag ∧
        ([0x00, 0x04, 0x80, 0x02, 0xAA, 0xBB] : List Nat).getD (k + 1) 0 = d.Length ∧
        d.originalBytes = (([0x00, 0x04, 0x80, 0x02, 0xAA, 0xBB] : List Nat).drop (k + 2)).take d.Length) ∧
      ∀ b2 : List Nat, 3 ≤ b2.length → d.Length + 2 ≤ b2.length →
        d.Serialise b2 = .ok ((d.Length + 2) % 256,
          d.Tag :: d.Length :: (d.originalBytes ++ b2.drop (2 + d.Length)))) :=
  ⟨by decide, parseDescriptors_roundtrip _ 10 0 _ 6 (by decide)⟩

/-! ### The PSI section header and CRC check (claim C2) -/

/-- Characterisation of a successful header parse for a section with a
non-zero section length: the stop flag is unset and the returned offsets are
determined by the section length and table type. -/
theorem parsePSISectionHeader_no_stop {bs : List Nat} {off : Nat}
    {h : PSISectionHeader} {offStart offSecStart offSecEnd offEnd off1 : Nat}
    (hh : parsePSISectionHeader bs off =
      .ok ((h, offStart, offSecStart, offSecEnd, offEnd), off1))
    (hlen : h.SectionLength ≠ 0) :
    shouldStopPSIParsing h.TableType = false ∧ offStart = off ∧
    offSecStart = off + 3 ∧ off1 = off + 3 ∧
    offEnd = off + 3 + h.SectionLength ∧
    offSecEnd = (if hasCRC32 h.TableType then offEnd - 4 else offEnd) ∧
    off + 3 ≤ bs.length := by
  unfold parsePSISectionHeader at hh
  cases hb : nextByte bs off with
  | error e => rw [hb, bindErr] at hh; exact absurd hh (by simp)
  | ok v =>
    obtain ⟨b, offb⟩ := v
    rw [hb, bindOk] at hh
    dsimp only at hh
    obtain ⟨hblt, hbval, hoffb⟩ := nextByte_ok hb
    split at hh
    case isTrue hstop =>
      simp only [pure, Except.pure, Except.ok.injEq, Prod.mk.injEq] at hh
      obtain ⟨⟨hhh, _⟩, _⟩ := hh
      rw [← hhh] at hlen
      exact absurd rfl hlen
    case isFalse hstop =>
      cases hcs : nextBytes bs 2 offb with
      | error e => rw [hcs, bindErr] at hh; exact absurd hh (by simp)
      | ok w =>
        obtain ⟨cs, offc⟩ := w
        rw [hcs, bindOk] at hh
        dsimp only at hh
        obtain ⟨hcsv, _, hoffc⟩ := nextBytes_ok hcs
        simp only [pure, Except.pure, Except.ok.injEq, Prod.mk.injEq] at hh
        obtain ⟨⟨hhh, h1, h2, h3, h4⟩, h5⟩ := hh
        subst hhh
        dsimp only at hstop h3 h4 ⊢
        refine ⟨by simpa using hstop, h1.symm, by omega, by omega, by omega, ?_, by omega⟩
        rw [← h4]
        exact h3.symm

/-- A successful `parseCRC32` reads the 4 bytes at its offset, big-endian. -/
theorem parseCRC32_ok {bs : List Nat} {off : Nat} (hle : off + 4 ≤ bs.length) :
    parseCRC32 bs off = .ok (storedCRC32At bs off, off + 4) := by
  unfold parseCRC32 nextBytes
  rw [if_pos hle, bindOk]
  dsimp only
  simp only [pure, Except.pure, Except.ok.injEq, Prod.mk.injEq]
  refine ⟨?_, trivial⟩
  rw [getD_drop_take (by omega), getD_drop_take (by omega), getD_drop_take (by omega),
    getD_drop_take (by omega)]
  simp [storedCRC32At]

/-- Claim C2: for a PSI section whose header parses with a non-zero section
length and whose syntax parses, if the table type is one of the CRC-carrying
types (PAT, PMT, EIT, NIT, TOT, SDT) then `parsePSISection` reads the 4
bytes at section_end - 4 (= `offSecEnd`) as a big-endian CRC32, computes the
CRC32 of the section bytes from the first header byte up to (but excluding)
those 4 bytes, succeeds exactly when the two agree, and fails with the
mismatch error otherwise; sections of all other table types are never
CRC-checked and succeed outright. -/
theorem parsePSISection_crc32_check (bs : List Nat) (fuel off : Nat)
    (h : PSISectionHeader) (offStart offSecStart offSecEnd offEnd off1 : Nat)
    (syn : PSISectionSyntax) (off2 : Nat)
    (hhdr : parsePSISectionHeader bs off =
      .ok ((h, offStart, offSecStart, offSecEnd, offEnd), off1))
    (hlen : h.SectionLength ≠ 0)
    (hsyn : parsePSISectionSyntax bs fuel h offSecEnd off1 = .ok (syn, off2))
    (havail : offSecEnd + 4 ≤ bs.length) :
    (hasCRC32 h.TableType = true →
      offSecEnd = offEnd - 4 ∧
      (storedCRC32At bs offSecEnd =
          computeCRC32 ((bs.drop offStart).take (offSecEnd - offStart)) →
        parsePSISection bs fuel off =
          .ok (({ CRC32 := storedCRC32At bs offSecEnd, Header := h,
                  Syntax := some syn }, false), offEnd)) ∧
      (storedCRC32At bs offSecEnd ≠
          computeCRC32 ((bs.drop offStart).take (offSecEnd - offStart)) →
        parsePSISection bs fuel off =
          .error (.crc32Mismatch (storedCRC32At bs offSecEnd)
            (computeCRC32 ((bs.drop offStart).take (offSecEnd - offStart)))))) ∧
    (hasCRC32 h.TableType = false →
      parsePSISection bs fuel off =
        .ok (({ CRC32 := 0, Header := h, Syntax := some syn }, false), offEnd)) := by
  obtain ⟨hstop, hoffStart, _, hoff1, hoffEnd, hoffSecEnd, _⟩ :=
    parsePSISectionHeader_no_stop hhdr hlen
  constructor
  · intro hcrc
    have hsecEnd : offSecEnd = offEnd - 4 := by rw [hoffSecEnd, if_pos hcrc]
    have hgeStart : offStart ≤ offSecEnd := by
      rw [hsecEnd, hoffEnd, hoffStart]
      omega
    have hread : nextBytes bs (offSecEnd - offStart) offStart =
        .ok ((bs.drop offStart).take (offSecEnd - offStart), offStart + (offSecEnd - offStart)) := by
      unfold nextBytes
      rw [if_pos (by omega)]
    refine ⟨hsecEnd, ?_, ?_⟩
    · intro heq
      unfold parsePSISection
      rw [hhdr, bindOk]
      dsimp only
      rw [if_neg (by rw [hstop]; simp), if_pos hlen, hsyn, bindOk]
      dsimp only
      rw [if_pos hcrc, parseCRC32_ok havail, bindOk]
      dsimp only
      rw [hread, bindOk]
      dsimp only
      rw [if_neg (by rw [← heq]; simp)]
      rfl
    · intro hne
      unfold parsePSISection
      rw [hhdr, bindOk]
      dsimp only
      rw [if_neg (by rw [hstop]; simp), if_pos hlen, hsyn, bindOk]
      dsimp only
      rw [if_pos hcrc, parseCRC32_ok havail, bindOk]
      dsimp only
      rw [hread, bindOk]
      dsimp only
      rw [if_pos (by intro hx; exact hne hx.symm)]
      rfl
  · intro hcrc
    unfold parsePSISection
    rw [hhdr, bindOk]
    dsimp only
    rw [if_neg (by rw [hstop]; simp), if_pos hlen, hsyn, bindOk]
    dsimp only
    rw [if_neg (by rw [hcrc]; simp)]
    rfl

/-- Witness for C2 at a concrete valid TOT section. -/
theorem parsePSISection_crc32_check_witness :
    (parsePSISectionHeader totSectionBytes 0 =
      .ok ((totSectionHeader, 0, 3, 10, 14), 3) ∧
     totSectionHeader.SectionLength ≠ 0 ∧
     parsePSISectionSyntax totSectionBytes 20 totSectionHeader 10 3 =
      .ok (totSectionSyntax, 10) ∧
     10 + 4 ≤ totSectionBytes.length) ∧
    ((hasCRC32 totSectionHeader.TableType = true →
      10 = 14 - 4 ∧
      (storedCRC32At totSectionBytes 10 =
          computeCRC32 ((totSectionBytes.drop 0).take (10 - 0)) →
        parsePSISection totSectionBytes 20 0 =
          .ok (({ CRC32 := storedCRC32At totSectionBytes 10, Header := totSectionHeader,
                  Syntax := some totSectionSyntax }, false), 14)) ∧
      (storedCRC32At totSectionBytes 10 ≠
          computeCRC32 ((totSectionBytes.drop 0).take (10 - 0)) →
        parsePSISection totSectionBytes 20 0 =
          .error (.crc32Mismatch (storedCRC32At totSectionBytes 10)
            (computeCRC32 ((totSectionBytes.drop 0).take (10 - 0)))))) ∧
    (hasCRC32 totSectionHeader.TableType = false →
      parsePSISection totSectionBytes 20 0 =
        .ok (({ CRC32 := 0, Header := totSectionHeader,
                Syntax := some totSectionSyntax }, false), 14))) :=
  ⟨⟨by decide, by decide, by decide, by decide⟩,
   parsePSISection_crc32_check totSectionBytes 20 0 totSectionHeader 0 3 10 14 3
     totSectionSyntax 10 (by decide) (by decide) (by decide) (by decide)⟩

/-! ### Stopping on Null/Unknown table IDs (claim C9) -/

/-- Claim C9 (amended): when the byte at the cursor classifies as a Null or
Unknown table ID, the PSI section loop stops right there: it consumes only
that table-ID byte (no section-length, syntax or CRC bytes of that or any
later section), reports no error, and returns the sections parsed so far
plus one final header-only section recording the stopping table ID. -/
theorem parsePSIDataLoop_stops_on_null (bs : List Nat) (fuel off : Nat)
    (acc : List PSISection) (hoff : off < bs.length)
    (hstop : shouldStopPSIParsing (psiTableType (bs.getD off 0)) = true) :
    parsePSIDataLoop bs (fuel + 1) off acc =
      .ok (acc ++ [{ Header := { TableID := bs.getD off 0,
                                 TableType := psiTableType (bs.getD off 0) } }], off + 1) := by
  have hb : nextByte bs off = .ok (bs.getD off 0, off + 1) := by
    unfold nextByte
    rw [dif_pos hoff]
    simp [List.get_eq_getElem, List.getD_eq_getElem?_getD, List.getElem?_eq_getElem hoff]
  have hsec : parsePSISection bs fuel off =
      .ok (({ Header := { TableID := bs.getD off 0,
                          TableType := psiTableType (bs.getD off 0) } }, true), off + 1) := by
    unfold parsePSISection parsePSISectionHeader
    rw [hb, bindOk]
    dsimp only
    rw [if_pos hstop, bindPure]
    dsimp only
    rw [if_pos hstop]
    rfl
  rw [parsePSIDataLoop]
  rw [if_pos (by simpa [hasBytesLeft] using hoff), hsec, bindOk]
  dsimp only
  rfl

/-- Counterexample to C9 as stated: on the payload 0x00 0xFF (pointer field
0, then a Null table ID with no sections before it), parsePSIData succeeds
but returns one section - a header-only stub recording table ID 0xFF -
rather than the empty list of sections parsed so far. -/
theorem parsePSIData_null_stub_counterexample :
    parsePSIData [0x00, 0xff] 20 0 =
      .ok ({ PointerField := 0,
             Sections := [{ Header := { TableID := 0xff, TableType := .Null } }] }, 2) ∧
    ({ PointerField := 0,
       Sections := [{ Header := { TableID := 0xff, TableType := .Null } }] } : PSIData).Sections
      ≠ ([] : List PSISection) := by decide

/-- Witness for C9 (amended) at a concrete one-byte payload tail. -/
theorem parsePSIDataLoop_stops_on_null_witness :
    (0 < ([0xff] : List Nat).length ∧
     shouldStopPSIParsing (psiTableType (([0xff] : List Nat).getD 0 0)) = true) ∧
    parsePSIDataLoop [0xff] 20 0 [] =
      .ok ([{ Header := { TableID := ([0xff] : List Nat).getD 0 0,
                          TableType := psiTableType (([0xff] : List Nat).getD 0 0) } }], 1) :=
  ⟨⟨by decide, by decide⟩,
   parsePSIDataLoop_stops_on_null [0xff] 19 0 [] (by decide) (by decide)⟩

/-! ### CRC32 mismatch handling in the demuxer (claim C3) -/

/-- Counterexample to C3 as stated: on a payload whose first section is a
CRC-corrupted TOT followed by a fully valid TOT section, parsePSIData
returns the CRC mismatch error and no sections at all — the following valid
section of the same payload is not parsed, so the failing section is not the
only thing dropped. -/
theorem parsePSIData_crc32_abort_counterexample :
    parsePSIData (0x00 :: totSectionBytesBadCRC ++ totSectionBytes) 20 0 =
      .error (.crc32Mismatch 32 794702) := by decide

/-- Claim C3 (amended): a CRC32 mismatch aborts the whole PSI payload, not
just the failing section: the section loop propagates the error, so every
section of that payload is dropped.  The demuxer is not aborted, though: when
a completed packet group fails to parse, NextData reports the error, but the
pool has already flushed the offending group (keeping the freshly started
buffer for the new packet) and the rest of the input is untouched, so
subsequent NextData calls continue with the following packets. -/
theorem crc32Mismatch_drops_payload (bs : List Nat) (fuel off : Nat)
    (acc : List PSISection) (e : Err) (dmx : Demuxer) (p : Packet)
    (rest ps : List Packet) (pool' : PacketPool) (e2 : Err)
    (hoff : off < bs.length)
    (hsec : parsePSISection bs fuel off = .error e)
    (hbuf : dmx.dataBuffer = [])
    (hadd : dmx.packetPool.Add p = (some ps, pool'))
    (hpd : ParseData fuel ps dmx.programMap = .error e2) :
    parsePSIDataLoop bs (fuel + 1) off acc = .error e ∧
    Demuxer.NextData fuel dmx (p :: rest) =
      ((none, some e2), { dmx with packetPool := pool' }, rest) := by
  constructor
  · rw [parsePSIDataLoop]
    rw [if_pos (by simpa [hasBytesLeft] using hoff), hsec, bindErr]
  · unfold Demuxer.NextData
    rw [hbuf]
    rw [Demuxer.nextDataPacketLoop, hadd]
    dsimp only
    rw [hpd]
    dsimp only
    rw [hbuf]

/-- Witness for C3 (amended): the corrupted TOT payload, sitting in the pool
as a completed group, yields the mismatch error while the demuxer state moves
on to the next group. -/
theorem crc32Mismatch_drops_payload_witness :
    (0 < totSectionBytesBadCRC.length ∧
     parsePSISection totSectionBytesBadCRC 19 0 = .error (.crc32Mismatch 32 794702) ∧
     ({ packetPool := ⟨[(0x10, [badCRCPacket])]⟩ } : Demuxer).dataBuffer = [] ∧
     ({ packetPool := ⟨[(0x10, [badCRCPacket])]⟩ } : Demuxer).packetPool.Add flushPacket =
       (some [badCRCPacket], ⟨[(0x10, [flushPacket])]⟩) ∧
     ParseData 19 [badCRCPacket]
       ({ packetPool := ⟨[(0x10, [badCRCPacket])]⟩ } : Demuxer).programMap =
       .error (.crc32Mismatch 32 794702)) ∧
    (parsePSIDataLoop totSectionBytesBadCRC (19 + 1) 0 [] =
       .error (.crc32Mismatch 32 794702) ∧
     Demuxer.NextData 19 ({ packetPool := ⟨[(0x10, [badCRCPacket])]⟩ } : Demuxer) [flushPacket] =
       ((none, some (.crc32Mismatch 32 794702)),
        { ({ packetPool := ⟨[(0x10, [badCRCPacket])]⟩ } : Demuxer) with
            packetPool := ⟨[(0x10, [flushPacket])]⟩ }, [])) :=
  ⟨⟨by decide, by decide, by decide, by decide, by decide⟩,
   crc32Mismatch_drops_payload totSectionBytesBadCRC 19 0 []
     (.crc32Mismatch 32 794702) { packetPool := ⟨[(0x10, [badCRCPacket])]⟩ }
     flushPacket [] [badCRCPacket] ⟨[(0x10, [flushPacket])]⟩
     (.crc32Mismatch 32 794702) (by decide) (by decide) (by decide) (by decide) (by decide)⟩

/-! ### ProgramMap learning from PATs (claim C7) -/

/-- Setting a PID makes it present. -/
theorem ProgramMap_contains_Set_self (pm : ProgramMap) (p n : Nat) :
    (pm.Set p n).contains p = true := by
  unfold ProgramMap.Set ProgramMap.contains
  split
  case isTrue hany =>
    simp only [List.any_map, List.any_eq_true] at hany ⊢
    obtain ⟨kv, hkv, hq⟩ := hany
    exact ⟨kv, hkv, by simp [Function.comp, hq]⟩
  case isFalse hany =>
    simp

/-- Setting a PID keeps every present PID present. -/
theorem ProgramMap_contains_Set_of {pm : ProgramMap} {q : Nat} (p n : Nat)
    (h : pm.contains q = true) : (pm.Set p n).contains q = true := by
  unfold ProgramMap.contains at h
  unfold ProgramMap.Set ProgramMap.contains
  simp only [List.any_eq_true] at h
  obtain ⟨kv, hm, hq⟩ := h
  split
  · simp only [List.any_map, List.any_eq_true]
    refine ⟨kv, hm, ?_⟩
    simp only [Function.comp]
    by_cases hc : (kv.1 == p) = true
    · rw [if_pos hc]
      simp only [beq_iff_eq] at hq hc ⊢
      rw [← hc]
      exact hq
    · rw [if_neg hc]
      exact hq
  · simp only [List.any_append, List.any_eq_true, Bool.or_eq_true]
    exact Or.inl ⟨kv, hm, hq⟩

/-- A PID present after a Set was either just set or already present. -/
theorem ProgramMap_contains_of_Set {pm : ProgramMap} {p n q : Nat}
    (h : (pm.Set p n).contains q = true) : q = p ∨ pm.contains q = true := by
  unfold ProgramMap.Set ProgramMap.contains at h
  unfold ProgramMap.contains
  split at h
  · simp only [List.any_map, List.any_eq_true] at h
    obtain ⟨kv, hm, hq⟩ := h
    simp only [Function.comp] at hq
    by_cases hc : kv.1 == p
    · rw [if_pos hc] at hq
      simp only [beq_iff_eq] at hq
      exact Or.inl hq.symm
    · rw [if_neg hc] at hq
      exact Or.inr (List.any_eq_true.mpr ⟨kv, hm, hq⟩)
  · simp only [List.any_append, List.any_eq_true, Bool.or_eq_true] at h
    rcases h with h | h
    · exact Or.inr (List.any_eq_true.mpr h)
    · obtain ⟨x, hx, hq⟩ := h
      rw [List.mem_singleton] at hx
      subst hx
      simp only [beq_iff_eq] at hq
      exact Or.inl hq.symm

/-- The program fold keeps every present PID present. -/
theorem patFold_mono :
    ∀ (l : List PATProgram) (pm : ProgramMap) (q : Nat), pm.contains q = true →
      (l.foldl updateProgramMapFromProgram pm).contains q = true := by
  intro l
  induction l with
  | nil => intro pm q h; exact h
  | cons pgm l ih =>
    intro pm q h
    rw [List.foldl_cons]
    apply ih
    unfold updateProgramMapFromProgram
    split
    · exact ProgramMap_contains_Set_of _ _ h
    · exact h

/-- The program fold records every program with a non-zero number. -/
theorem patFold_contains :
    ∀ (l : List PATProgram) (pm : ProgramMap) (pgm : PATProgram), pgm ∈ l →
      0 < pgm.ProgramNumber →
      (l.foldl updateProgramMapFromProgram pm).contains pgm.ProgramMapID = true := by
  intro l
  induction l with
  | nil => intro pm pgm h; exact absurd h (List.not_mem_nil pgm)
  | cons a l ih =>
    intro pm pgm h hpos
    rw [List.foldl_cons]
    rcases List.mem_cons.mp h with rfl | h
    · apply patFold_mono
      unfold updateProgramMapFromProgram
      rw [if_pos hpos]
      exact ProgramMap_contains_Set_self _ _ _
    · exact ih _ pgm h hpos

/-- Every PID present after the program fold was present before or belongs to
a program of the list with a non-zero program number. -/
theorem patFold_new :
    ∀ (l : List PATProgram) (pm : ProgramMap) (q : Nat),
      (l.foldl updateProgramMapFromProgram pm).contains q = true →
      pm.contains q = true ∨ ∃ pgm ∈ l, pgm.ProgramMapID = q ∧ 0 < pgm.ProgramNumber := by
  intro l
  induction l with
  | nil => intro pm q h; exact Or.inl h
  | cons a l ih =>
    intro pm q h
    rw [List.foldl_cons] at h
    rcases ih _ _ h with h1 | h1
    · unfold updateProgramMapFromProgram at h1
      split at h1
      case isTrue hpos =>
        rcases ProgramMap_contains_of_Set h1 with rfl | h2
        · exact Or.inr ⟨a, List.mem_cons_self a l, rfl, hpos⟩
        · exact Or.inl h2
      case isFalse => exact Or.inl h1
    · obtain ⟨pgm, hm, hq⟩ := h1
      exact Or.inr ⟨pgm, List.mem_cons_of_mem _ hm, hq⟩

/-- The data fold keeps every present PID present. -/
theorem dataFold_mono :
    ∀ (l : List Data) (pm : ProgramMap) (q : Nat), pm.contains q = true →
      (l.foldl updateProgramMapFromData pm).contains q = true := by
  intro l
  induction l with
  | nil => intro pm q h; exact h
  | cons v l ih =>
    intro pm q h
    rw [List.foldl_cons]
    apply ih
    unfold updateProgramMapFromData
    split
    · exact patFold_mono _ _ _ h
    · exact h

/-- The data fold records every positive-numbered program of every PAT unit. -/
theorem dataFold_contains :
    ∀ (l : List Data) (pm : ProgramMap) (v : Data) (pat : PATData) (pgm : PATProgram),
      v ∈ l → v.PAT = some pat → pgm ∈ pat.Programs → 0 < pgm.ProgramNumber →
      (l.foldl updateProgramMapFromData pm).contains pgm.ProgramMapID = true := by
  intro l
  induction l with
  | nil => intro pm v pat pgm h; exact absurd h (List.not_mem_nil v)
  | cons a l ih =>
    intro pm v pat pgm h hpat hpgm hpos
    rw [List.foldl_cons]
    rcases List.mem_cons.mp h with rfl | h
    · apply dataFold_mono
      unfold updateProgramMapFromData
      rw [hpat]
      exact patFold_contains _ _ _ hpgm hpos
    · exact ih _ v pat pgm h hpat hpgm hpos

/-- Every PID present after the data fold was present before or belongs to a
positive-numbered program of some PAT unit of the list. -/
theorem dataFold_new :
    ∀ (l : List Data) (pm : ProgramMap) (q : Nat),
      (l.foldl updateProgramMapFromData pm).contains q = true →
      pm.contains q = true ∨
      ∃ v ∈ l, ∃ pat, v.PAT = some pat ∧
        ∃ pgm ∈ pat.Programs, pgm.ProgramMapID = q ∧ 0 < pgm.ProgramNumber := by
  intro l
  induction l with
  | nil => intro pm q h; exact Or.inl h
  | cons a l ih =>
    intro pm q h
    rw [List.foldl_cons] at h
    rcases ih _ _ h with h1 | h1
    · unfold updateProgramMapFromData at h1
      split at h1
      case h_1 pat hpat =>
        rcases patFold_new _ _ _ h1 with h2 | h2
        · exact Or.inl h2
        · obtain ⟨pgm, hm, hq, hpos⟩ := h2
          exact Or.inr ⟨a, List.mem_cons_self a l, pat, hpat, pgm, hm, hq, hpos⟩
      case h_2 => exact Or.inl h1
    · obtain ⟨v, hm, rest⟩ := h1
      exact Or.inr ⟨v, List.mem_cons_of_mem _ hm, rest⟩

/-- The program map reached by updateData is the data fold of the old one. -/
theorem updateData_programMap_eq (dmx : Demuxer) (d : Data) (rest : List Data) :
    ((dmx.updateData (d :: rest)).2).programMap =
      (d :: rest).foldl updateProgramMapFromData dmx.programMap := by
  unfold Demuxer.updateData
  dsimp only

/-- Claim C7: after the demuxer's updateData processes a PAT data unit with
programs (n_i, pid_i), the ProgramMap contains an entry keyed by pid_i for
every program with n_i > 0, and no entry is added for any program whose
program number is 0: every PID present afterwards was either present before
or is the PID of some positive-numbered program of a processed PAT. -/
theorem updateData_programMap (dmx : Demuxer) (ds : List Data) (data : Data)
    (pat : PATData) (pgm : PATProgram) (pid : Nat)
    (hd : data ∈ ds) (hpat : data.PAT = some pat) (hpgm : pgm ∈ pat.Programs) :
    (0 < pgm.ProgramNumber →
      ((dmx.updateData ds).2).programMap.contains pgm.ProgramMapID = true) ∧
    (((dmx.updateData ds).2).programMap.contains pid = true →
      dmx.programMap.contains pid = true ∨
      ∃ d2 ∈ ds, ∃ pat2, d2.PAT = some pat2 ∧
        ∃ pgm2 ∈ pat2.Programs, pgm2.ProgramMapID = pid ∧ 0 < pgm2.ProgramNumber) := by
  cases ds with
  | nil => exact absurd hd (List.not_mem_nil data)
  | cons d rest =>
    rw [updateData_programMap_eq]
    constructor
    · intro hpos
      exact dataFold_contains _ _ data pat pgm hd hpat hpgm hpos
    · intro h
      exact dataFold_new _ _ _ h

/-- Witness for C7 at a concrete PAT with one positive-numbered program and
the NIT reference (program number 0). -/
theorem updateData_programMap_witness :
    (patDataUnit ∈ [patDataUnit] ∧ patDataUnit.PAT = some patUnitBody ∧
     ({ ProgramMapID := 0x1098, ProgramNumber := 257 } : PATProgram) ∈ patUnitBody.Programs) ∧
    ((0 < (257 : Nat) →
      ((Demuxer.updateData {} [patDataUnit]).2).programMap.contains 0x1098 = true) ∧
     (((Demuxer.updateData {} [patDataUnit]).2).programMap.contains 0x10 = true →
      ({} : Demuxer).programMap.contains 0x10 = true ∨
      ∃ d2 ∈ [patDataUnit], ∃ pat2, d2.PAT = some pat2 ∧
        ∃ pgm2 ∈ pat2.Programs, pgm2.ProgramMapID = 0x10 ∧ 0 < pgm2.ProgramNumber)) :=
  ⟨⟨by decide, by decide, by decide⟩,
   updateData_programMap {} [patDataUnit] patDataUnit patUnitBody
     { ProgramMapID := 0x1098, ProgramNumber := 257 } 0x10
     (by decide) (by decide) (by decide)⟩

/-- C8: when one completed packet group yields several data units,
Demuxer.NextData returns the first and buffers the rest in order.  First
conjunct: a call with a non-empty data buffer pops its head before reading
any packet (the input is untouched).  Second conjunct: a call with an empty
buffer whose next packet completes a group that parses to units d :: ds'
returns d and leaves exactly ds' buffered, in order, for subsequent calls. -/
theorem nextData_buffering (fuel : Nat) (dmx dmx2 : Demuxer)
    (input : List Packet) (d0 : Data) (rest0 : List Data) (p : Packet)
    (rest ps : List Packet) (pool2 : PacketPool) (d : Data) (ds2 : List Data)
    (h1 : dmx.dataBuffer = d0 :: rest0)
    (h2 : dmx2.dataBuffer = [])
    (h3 : dmx2.packetPool.Add p = (some ps, pool2))
    (h4 : ParseData fuel ps dmx2.programMap = .ok (d :: ds2)) :
    Demuxer.NextData fuel dmx input =
      ((some d0, none), { dmx with dataBuffer := rest0 }, input) ∧
    Demuxer.NextData fuel dmx2 (p :: rest) =
      ((some d, none),
       { dataBuffer := ds2, packetPool := pool2,
         programMap := (d :: ds2).foldl updateProgramMapFromData dmx2.programMap },
       rest) := by
  constructor
  · unfold Demuxer.NextData
    rw [h1]
  · unfold Demuxer.NextData
    rw [h2]
    rw [Demuxer.nextDataPacketLoop, h3]
    dsimp only
    rw [h4]
    dsimp only
    unfold Demuxer.updateData
    dsimp only
    rw [h2, List.nil_append]

/-- Witness for C8: a demuxer whose buffer holds two units pops the first,
and a demuxer with an empty buffer receiving a flush packet that completes a
two-section TOT group returns the first section's unit and buffers the
second. -/
theorem nextData_buffering_witness :
    (({ dataBuffer := [patDataUnit, twoTOTDataUnit] } : Demuxer).dataBuffer =
       patDataUnit :: [twoTOTDataUnit] ∧
     ({ packetPool := ⟨[(0x10, [twoTOTPacket])]⟩ } : Demuxer).dataBuffer = [] ∧
     ({ packetPool := ⟨[(0x10, [twoTOTPacket])]⟩ } : Demuxer).packetPool.Add
       flushPacket = (some [twoTOTPacket], ⟨[(0x10, [flushPacket])]⟩) ∧
     ParseData 19 [twoTOTPacket]
       ({ packetPool := ⟨[(0x10, [twoTOTPacket])]⟩ } : Demuxer).programMap =
       .ok (twoTOTDataUnit :: [twoTOTDataUnit])) ∧
    (Demuxer.NextData 19 { dataBuffer := [patDataUnit, twoTOTDataUnit] } [] =
       ((some patDataUnit, none),
        { dataBuffer := [twoTOTDataUnit] }, []) ∧
     Demuxer.NextData 19 { packetPool := ⟨[(0x10, [twoTOTPacket])]⟩ }
       [flushPacket] =
       ((some twoTOTDataUnit, none),
        { dataBuffer := [twoTOTDataUnit],
          packetPool := ⟨[(0x10, [flushPacket])]⟩,
          programMap := (twoTOTDataUnit :: [twoTOTDataUnit]).foldl
            updateProgramMapFromData
            ({ packetPool := ⟨[(0x10, [twoTOTPacket])]⟩ } : Demuxer).programMap },
        [])) :=
  ⟨⟨by decide, by decide, by decide, by decide⟩,
   nextData_buffering 19 { dataBuffer := [patDataUnit, twoTOTDataUnit] }
     { packetPool := ⟨[(0x10, [twoTOTPacket])]⟩ } [] patDataUnit
     [twoTOTDataUnit] flushPacket [] [twoTOTPacket] ⟨[(0x10, [flushPacket])]⟩
     twoTOTDataUnit [twoTOTDataUnit]
     (by decide) (by decide) (by decide) (by decide)⟩

/-! ### PSI serialisation characterisation (claim C10) -/

/-- The syntax-header serialiser always writes 5 bytes. -/
theorem psiSectionSyntaxHeaderOut_length (sh : PSISectionSyntaxHeader) :
    (psiSectionSyntaxHeaderOut sh).length = 5 := rfl

/-- The section-header serialiser always writes 3 bytes. -/
theorem psiSectionHeaderOut_length (h : PSISectionHeader) :
    (psiSectionHeaderOut h).length = 3 := rfl

/-- The CRC32 serialiser always writes 4 bytes. -/
theorem crc32OutBytes_length (c : Nat) : (crc32OutBytes c).length = 4 := rfl

/-- A successful PATData.Serialise writes exactly the PAT body bytes. -/
theorem PATData_Serialise_ok {d : PATData} {b : List Nat} {n : Nat} {b2 : List Nat}
    (h : d.Serialise b = .ok (n, b2)) :
    n = (patBodyBytes d).length ∧ b2 = patBodyBytes d ++ b.drop n ∧ n ≤ b.length := by
  unfold PATData.Serialise at h
  dsimp only at h
  split at h
  · exact absurd h (by simp)
  · simp only [Except.ok.injEq, Prod.mk.injEq] at h
    obtain ⟨hn, hb⟩ := h
    subst hn
    exact ⟨rfl, hb.symm, by omega⟩

/-- A successful PMTData.Serialise writes exactly the PMT body bytes. -/
theorem PMTData_Serialise_ok {d : PMTData} {b : List Nat} {n : Nat} {b2 : List Nat}
    (h : d.Serialise b = .ok (n, b2)) :
    n = (pmtBodyBytes d).length ∧ b2 = pmtBodyBytes d ++ b.drop n ∧ n ≤ b.length := by
  unfold PMTData.Serialise at h
  dsimp only at h
  split at h
  · exact absurd h (by simp)
  · simp only [Except.ok.injEq, Prod.mk.injEq] at h
    obtain ⟨hn, hb⟩ := h
    subst hn
    exact ⟨rfl, hb.symm, by omega⟩

/-- A successful PSISectionSyntaxData.Serialise writes exactly the table body
bytes. -/
theorem PSISectionSyntaxData_Serialise_ok {sd : PSISectionSyntaxData} {b : List Nat}
    {n : Nat} {b2 : List Nat} (h : sd.Serialise b = .ok (n, b2)) :
    n = (psiSectionSyntaxDataOut sd).length ∧
    b2 = psiSectionSyntaxDataOut sd ++ b.drop n ∧ n ≤ b.length := by
  unfold PSISectionSyntaxData.Serialise at h
  unfold psiSectionSyntaxDataOut
  cases hpat : sd.PAT with
  | some pat =>
    rw [hpat] at h
    exact PATData_Serialise_ok h
  | none =>
    rw [hpat] at h
    cases hpmt : sd.PMT with
    | some pmt =>
      rw [hpmt] at h
      exact PMTData_Serialise_ok h
    | none =>
      rw [hpmt] at h
      dsimp only at h
      simp only [Except.ok.injEq, Prod.mk.injEq] at h
      obtain ⟨hn, hb⟩ := h
      subst hn
      exact ⟨rfl, hb.symm, Nat.zero_le _⟩

/-- A successful PSISectionSyntaxHeader.Serialise writes exactly the 5
syntax-header bytes. -/
theorem PSISectionSyntaxHeader_Serialise_ok {sh : PSISectionSyntaxHeader}
    {b : List Nat} {n : Nat} {b2 : List Nat} (h : sh.Serialise b = .ok (n, b2)) :
    n = 5 ∧ b2 = psiSectionSyntaxHeaderOut sh ++ b.drop 5 ∧ 5 ≤ b.length := by
  unfold PSISectionSyntaxHeader.Serialise at h
  split at h
  · exact absurd h (by simp)
  · simp only [Except.ok.injEq, Prod.mk.injEq] at h
    exact ⟨h.1.symm, h.2.symm, by omega⟩

/-- Dropping the 5 syntax-header bytes of an append recovers the tail. -/
theorem psiSectionSyntaxHeaderOut_drop (sh : PSISectionSyntaxHeader)
    (z : List Nat) : (psiSectionSyntaxHeaderOut sh ++ z).drop 5 = z := rfl

/-- Taking the 5 syntax-header bytes of an append recovers the header. -/
theorem psiSectionSyntaxHeaderOut_take (sh : PSISectionSyntaxHeader)
    (z : List Nat) :
    (psiSectionSyntaxHeaderOut sh ++ z).take 5 = psiSectionSyntaxHeaderOut sh := rfl

/-- A successful PSISectionSyntax.Serialise writes exactly the syntax-header
bytes followed by the table-body bytes. -/
theorem PSISectionSyntax_Serialise_ok {s : PSISectionSyntax} {b : List Nat}
    {n : Nat} {b2 : List Nat} (h : s.Serialise b = .ok (n, b2)) :
    n = (psiSectionSyntaxOut s).length ∧
    b2 = psiSectionSyntaxOut s ++ b.drop n ∧ n ≤ b.length := by
  unfold PSISectionSyntax.Serialise at h
  unfold psiSectionSyntaxOut
  split at h
  · exact absurd h (by simp)
  cases hH : s.Header with
  | some sh =>
    rw [hH] at h
    dsimp only at h
    dsimp only
    cases hsh : PSISectionSyntaxHeader.Serialise sh b with
    | error e => rw [hsh, bindErr] at h; exact absurd h (by simp)
    | ok v =>
      obtain ⟨idx, b1⟩ := v
      rw [hsh, bindOk] at h
      dsimp only at h
      obtain ⟨hidx, hb1, h5⟩ := PSISectionSyntaxHeader_Serialise_ok hsh
      subst hidx
      subst hb1
      cases hD : s.Data with
      | some sd =>
        rw [hD, psiSectionSyntaxHeaderOut_drop] at h
        dsimp only at h
        dsimp only
        cases hsd : PSISectionSyntaxData.Serialise sd (b.drop 5) with
        | error e => rw [hsd, bindErr] at h; exact absurd h (by simp)
        | ok w =>
          obtain ⟨m, sub⟩ := w
          rw [hsd, bindOk] at h
          dsimp only at h
          rw [psiSectionSyntaxHeaderOut_take] at h
          simp only [Except.ok.injEq, Prod.mk.injEq] at h
          obtain ⟨hn, hb2⟩ := h
          obtain ⟨hm, hsub, hmle⟩ := PSISectionSyntaxData_Serialise_ok hsd
          subst hm
          subst hn
          subst hsub
          refine ⟨by simp [List.length_append, psiSectionSyntaxHeaderOut_length], ?_, ?_⟩
          · rw [← hb2, List.drop_drop, Nat.add_comm, List.append_assoc]
          · have hd5 : (b.drop 5).length = b.length - 5 := List.length_drop 5 b
            omega
      | none =>
        rw [hD] at h
        dsimp only at h
        simp only [Except.ok.injEq, Prod.mk.injEq] at h
        obtain ⟨hn, hb2⟩ := h
        subst hn
        dsimp only
        refine ⟨by simp [psiSectionSyntaxHeaderOut_length], ?_, h5⟩
        rw [← hb2, List.append_nil]
  | none =>
    rw [hH] at h
    dsimp only at h
    rw [bindOk] at h
    dsimp only at h
    simp only [List.drop_zero, List.take_zero, Nat.zero_add] at h
    cases hD : s.Data with
    | some sd =>
      rw [hD] at h
      dsimp only at h
      dsimp only
      cases hsd : PSISectionSyntaxData.Serialise sd b with
      | error e => rw [hsd, bindErr] at h; exact absurd h (by simp)
      | ok w =>
        obtain ⟨m, sub⟩ := w
        rw [hsd, bindOk] at h
        dsimp only at h
        simp only [List.nil_append, Except.ok.injEq, Prod.mk.injEq] at h
        obtain ⟨hn, hb2⟩ := h
        obtain ⟨hm, hsub, hmle⟩ := PSISectionSyntaxData_Serialise_ok hsd
        subst hm
        subst hn
        subst hsub
        exact ⟨by simp, hb2.symm, hmle⟩
    | none =>
      rw [hD] at h
      dsimp only at h
      simp only [Except.ok.injEq, Prod.mk.injEq] at h
      obtain ⟨hn, hb2⟩ := h
      subst hn
      exact ⟨rfl, hb2.symm, Nat.zero_le _⟩

/-- Taking the length of the left part of an append recovers it. -/
theorem take_append_of_length {xs z : List Nat} {k : Nat} (hk : xs.length = k) :
    (xs ++ z).take k = xs := by
  subst hk
  exact List.take_left xs z

/-- Dropping the length of the left part of an append leaves the right part. -/
theorem drop_append_of_length {xs z : List Nat} {k : Nat} (hk : xs.length = k) :
    (xs ++ z).drop k = z := by
  subst hk
  exact List.drop_left xs z

/-- Dropping past the left part of an append drops into the right part. -/
theorem drop_append_add {xs z : List Nat} {k j : Nat} (hk : xs.length = k) :
    (xs ++ z).drop (k + j) = z.drop j := by
  rw [← List.drop_drop, drop_append_of_length hk]

/-- A successful PSISection.Serialise writes exactly the section's output
bytes (header with recomputed length, syntax bytes, CRC32 for CRC table
types; nothing for the Null table ID) and leaves the rest of the buffer. -/
theorem PSISection_Serialise_ok {s : PSISection} {b : List Nat}
    {n : Nat} {b2 : List Nat} (h : s.Serialise b = .ok (n, b2)) :
    n = (psiSectionOut s).length ∧
    b2 = psiSectionOut s ++ b.drop n ∧ n ≤ b.length := by
  unfold PSISection.Serialise at h
  unfold psiSectionOut
  split at h
  · rename_i h255
    rw [if_pos h255]
    simp only [Except.ok.injEq, Prod.mk.injEq] at h
    obtain ⟨hn, hb⟩ := h
    subst hn
    exact ⟨rfl, hb.symm, Nat.zero_le _⟩
  rename_i h255
  rw [if_neg h255]
  split at h
  · exact absurd h (by simp)
  rename_i hroom
  cases hS : s.Syntax with
  | some syn =>
    rw [hS] at h
    dsimp only at h
    dsimp only
    cases hsyn : PSISectionSyntax.Serialise syn (b.drop 3) with
    | error e =>
      rw [hsyn, bindErr] at h
      exact absurd h (by simp)
    | ok w =>
      obtain ⟨m, sub⟩ := w
      rw [hsyn, bindOk] at h
      dsimp only at h
      obtain ⟨hm, hsub, hmle⟩ := PSISectionSyntax_Serialise_ok hsyn
      rw [List.length_drop] at hmle
      subst hm
      subst hsub
      rw [List.drop_drop] at h
      rw [bindOk] at h
      dsimp only at h
      unfold PSISectionHeader.Serialise at h
      dsimp only at h
      rw [if_neg h255] at h
      have hto : (b.take 3 ++ (psiSectionSyntaxOut syn ++
          b.drop (3 + (psiSectionSyntaxOut syn).length))).length = b.length := by
        simp only [List.length_append, List.length_take, List.length_drop]
        omega
      rw [hto, if_neg (by omega : ¬ b.length < 3)] at h
      rw [bindOk] at h
      dsimp only at h
      have htk : (b.take 3).length = 3 := by
        rw [List.length_take]
        omega
      rw [drop_append_of_length htk, ← List.append_assoc] at h
      have hbody : (psiSectionHeaderOut
          { PrivateBit := s.Header.PrivateBit,
            SectionLength := (3 + (psiSectionSyntaxOut syn).length + 4 - 3) % 65536,
            SectionSyntaxIndicator := s.Header.SectionSyntaxIndicator,
            TableID := s.Header.TableID, TableType := s.Header.TableType } ++
          psiSectionSyntaxOut syn).length = 3 + (psiSectionSyntaxOut syn).length := by
        rw [List.length_append, psiSectionHeaderOut_length]
      have hlen2 : ((psiSectionHeaderOut
          { PrivateBit := s.Header.PrivateBit,
            SectionLength := (3 + (psiSectionSyntaxOut syn).length + 4 - 3) % 65536,
            SectionSyntaxIndicator := s.Header.SectionSyntaxIndicator,
            TableID := s.Header.TableID, TableType := s.Header.TableType } ++
          psiSectionSyntaxOut syn) ++
          b.drop (3 + (psiSectionSyntaxOut syn).length)).length = b.length := by
        rw [List.length_append, hbody, List.length_drop]
        omega
      split at h
      · rename_i hcrc
        rw [if_pos hcrc]
        unfold nextBytes at h
        split at h
        · rw [bindOk] at h
          dsimp only at h
          rw [List.drop_zero, take_append_of_length hbody] at h
          split at h
          · rename_i hle4
            simp only [Except.ok.injEq, Prod.mk.injEq] at h
            obtain ⟨hn, hb2⟩ := h
            subst hn
            unfold listCopy at hb2
            rw [take_append_of_length hbody, drop_append_add hbody] at hb2
            rw [List.take_of_length_le (by rw [crc32OutBytes_length]; omega),
                List.drop_drop, crc32OutBytes_length] at hb2
            refine ⟨?_, ?_, ?_⟩
            · rw [List.length_append, List.length_append, psiSectionHeaderOut_length,
                  crc32OutBytes_length]
            · rw [← hb2]
            · omega
          · exact absurd h (by simp)
        · rw [bindErr] at h
          exact absurd h (by simp)
      · rename_i hcrc
        rw [if_neg hcrc]
        simp only [Except.ok.injEq, Prod.mk.injEq] at h
        obtain ⟨hn, hb2⟩ := h
        subst hn
        refine ⟨?_, ?_, ?_⟩
        · rw [List.length_append, psiSectionHeaderOut_length]
        · rw [← hb2]
        · omega
  | none =>
    rw [hS] at h
    dsimp only at h
    rw [bindOk] at h
    dsimp only at h
    unfold PSISectionHeader.Serialise at h
    dsimp only at h
    rw [if_neg h255, if_neg (by omega : ¬ b.length < 3)] at h
    rw [bindOk] at h
    dsimp only at h
    dsimp only
    simp only [List.length_nil, Nat.add_zero, List.append_nil]
    have hlen2 : (psiSectionHeaderOut
        { PrivateBit := s.Header.PrivateBit, SectionLength := (3 + 4 - 3) % 65536,
          SectionSyntaxIndicator := s.Header.SectionSyntaxIndicator,
          TableID := s.Header.TableID, TableType := s.Header.TableType } ++
        b.drop 3).length = b.length := by
      rw [List.length_append, psiSectionHeaderOut_length, List.length_drop]
      omega
    split at h
    · rename_i hcrc
      rw [if_pos hcrc]
      unfold nextBytes at h
      split at h
      · rw [bindOk] at h
        dsimp only at h
        rw [List.drop_zero, take_append_of_length (psiSectionHeaderOut_length _)] at h
        split at h
        · rename_i hle4
          simp only [Except.ok.injEq, Prod.mk.injEq] at h
          obtain ⟨hn, hb2⟩ := h
          subst hn
          unfold listCopy at hb2
          rw [take_append_of_length (psiSectionHeaderOut_length _),
              drop_append_add (psiSectionHeaderOut_length _)] at hb2
          rw [List.take_of_length_le (by rw [crc32OutBytes_length]; omega),
              List.drop_drop, crc32OutBytes_length] at hb2
          refine ⟨?_, ?_, ?_⟩
          · rw [List.length_append, psiSectionHeaderOut_length, crc32OutBytes_length]
          · rw [← hb2]
          · omega
        · exact absurd h (by simp)
      · rw [bindErr] at h
        exact absurd h (by simp)
    · rename_i hcrc
      rw [if_neg hcrc]
      simp only [Except.ok.injEq, Prod.mk.injEq] at h
      obtain ⟨hn, hb2⟩ := h
      subst hn
      exact ⟨(psiSectionHeaderOut_length _).symm, hb2.symm, by omega⟩

/-- Taking past the left part of an append keeps it and takes into the right
part. -/
theorem take_append_add {xs z : List Nat} {k j : Nat} (hk : xs.length = k) :
    (xs ++ z).take (k + j) = xs ++ z.take j := by
  subst hk
  exact List.take_append j

/-- The section-loop output distributes over a cons. -/
theorem psiSectionsOut_cons (s : PSISection) (ss : List PSISection) :
    psiSectionsOut (s :: ss) = psiSectionOut s ++ psiSectionsOut ss := rfl

/-- The section loop of PSIData.Serialise writes the sections' output bytes
back to back starting at the given index, leaves the buffer prefix intact and
preserves the buffer length. -/
theorem PSIDataSerialiseLoop_ok {ss : List PSISection} :
    ∀ {b : List Nat} {idx n : Nat} {b2 : List Nat},
    PSIDataSerialiseLoop ss b idx = .ok (n, b2) → idx ≤ b.length →
    n = idx + (psiSectionsOut ss).length ∧
    b2 = b.take idx ++ psiSectionsOut ss ++
      b.drop (idx + (psiSectionsOut ss).length) ∧
    n ≤ b.length ∧ b2.length = b.length := by
  induction ss with
  | nil =>
    intro b idx n b2 h hle
    unfold PSIDataSerialiseLoop at h
    simp only [Except.ok.injEq, Prod.mk.injEq] at h
    obtain ⟨hn, hb⟩ := h
    subst hn
    subst hb
    refine ⟨rfl, ?_, hle, rfl⟩
    show b = (b.take idx ++ []) ++ b.drop (idx + 0)
    rw [List.append_nil, Nat.add_zero, List.take_append_drop]
  | cons s rest ih =>
    intro b idx n b2 h hle
    unfold PSIDataSerialiseLoop at h
    cases hs : s.Serialise (b.drop idx) with
    | error e =>
      rw [hs, bindErr] at h
      exact absurd h (by simp)
    | ok w =>
      obtain ⟨n1, sub⟩ := w
      rw [hs, bindOk] at h
      dsimp only at h
      obtain ⟨hn1, hsub, hle1⟩ := PSISection_Serialise_ok hs
      rw [List.length_drop] at hle1
      subst hn1
      subst hsub
      rw [List.drop_drop] at h
      have htk : (b.take idx).length = idx := by
        rw [List.length_take]
        omega
      have hlen1 : (b.take idx ++ (psiSectionOut s ++
          b.drop (idx + (psiSectionOut s).length))).length = b.length := by
        simp only [List.length_append, List.length_drop, htk]
        omega
      have hidx2 : idx + (psiSectionOut s).length ≤ (b.take idx ++ (psiSectionOut s ++
          b.drop (idx + (psiSectionOut s).length))).length := by
        rw [hlen1]
        omega
      obtain ⟨hn, hb2, hnle, hblen⟩ := ih h hidx2
      rw [take_append_add htk, take_append_of_length rfl] at hb2
      rw [Nat.add_assoc, drop_append_add htk, drop_append_add rfl,
          List.drop_drop] at hb2
      refine ⟨?_, ?_, ?_, ?_⟩
      · rw [hn, psiSectionsOut_cons, List.length_append]
        omega
      · rw [hb2, psiSectionsOut_cons]
        simp only [List.append_assoc, List.length_append]
        rw [Nat.add_assoc]
      · rw [hlen1] at hnle
        exact hnle
      · rw [hlen1] at hblen
        exact hblen

/-- Overwriting the head of a non-empty list and taking one byte gives that
byte. -/
theorem take_one_set_zero {b : List Nat} {v : Nat} (hb : b ≠ []) :
    (b.set 0 v).take 1 = [v] := by
  cases b with
  | nil => exact absurd rfl hb
  | cons x t => rfl

/-- C10: PSIData.Serialise returns an error for every non-zero pointer field;
a successful serialisation implies the pointer field was zero and the buffer
holds the zero pointer-field byte, every non-Null section's bytes in order,
then 0xFF stuffing to the end, with the full buffer length returned. -/
theorem PSIData_Serialise_spec (d : PSIData) (b : List Nat) :
    (d.PointerField ≠ 0 → ∃ e, d.Serialise b = .error e) ∧
    (∀ n b2, d.Serialise b = .ok (n, b2) →
      d.PointerField = 0 ∧ n = b.length ∧
      1 + (psiSectionsOut d.Sections).length ≤ b.length ∧
      b2 = 0 :: psiSectionsOut d.Sections ++
        List.replicate (b.length - (1 + (psiSectionsOut d.Sections).length)) 0xff) := by
  constructor
  · intro hpf
    unfold PSIData.Serialise
    by_cases hb : b.length ≤ 1
    · rw [if_pos hb]
      exact ⟨.noRoomInBuffer, rfl⟩
    · rw [if_neg hb, if_pos hpf]
      exact ⟨.pointerFieldUnimplemented, rfl⟩
  · intro n b2 h
    unfold PSIData.Serialise at h
    split at h
    · exact absurd h (by simp)
    rename_i hlen
    split at h
    · exact absurd h (by simp)
    rename_i hpf
    have hpf0 : d.PointerField = 0 := by omega
    rw [hpf0] at h
    dsimp only at h
    cases hloop : PSIDataSerialiseLoop d.Sections (b.set 0 (0 % 256)) 1 with
    | error e =>
      rw [hloop, bindErr] at h
      exact absurd h (by simp)
    | ok w =>
      obtain ⟨idx, bf⟩ := w
      rw [hloop, bindOk] at h
      dsimp only at h
      have hsetlen : (b.set 0 (0 % 256)).length = b.length := List.length_set b 0 _
      have h1le : 1 ≤ (b.set 0 (0 % 256)).length := by
        rw [hsetlen]
        omega
      obtain ⟨hidx, hbf, hle2, hbl⟩ := PSIDataSerialiseLoop_ok hloop h1le
      have htk1 : ((b.set 0 (0 % 256)).take 1).length = 1 := by
        rw [List.length_take, hsetlen]
        omega
      have hone : (b.set 0 (0 % 256)).take 1 = [0] :=
        take_one_set_zero (by intro hnil; rw [hnil] at hlen; exact hlen (by simp))
      simp only [Except.ok.injEq, Prod.mk.injEq] at h
      obtain ⟨hn, hb2⟩ := h
      refine ⟨hpf0, ?_, ?_, ?_⟩
      · rw [hsetlen] at hle2
        rw [hidx] at hle2
        rw [← hn, hbl, hsetlen, hidx]
        exact Nat.max_eq_right hle2
      · rw [hsetlen] at hle2
        rw [hidx] at hle2
        exact hle2
      · rw [← hb2, hbl, hsetlen, hidx, hbf]
        have hko : ((b.set 0 (0 % 256)).take 1 ++ psiSectionsOut d.Sections).length =
            1 + (psiSectionsOut d.Sections).length := by
          rw [List.length_append, htk1]
        rw [take_append_of_length hko, hone]
        simp only [List.singleton_append, List.cons_append, List.nil_append]

/-- Witness for C10: a non-zero pointer field fails, and serialising the
parsed TOT section with a zero pointer field into a 12-byte buffer writes
the pointer byte, the section bytes and 0xFF stuffing, returning 12. -/
theorem PSIData_Serialise_spec_witness :
    (∃ e, PSIData.Serialise { PointerField := 1, Sections := [] }
      (List.replicate 12 7) = .error e) ∧
    (psiTOTData.PointerField = 0 ∧
     12 = (List.replicate 12 7 : List Nat).length ∧
     1 + (psiSectionsOut psiTOTData.Sections).length ≤
       (List.replicate 12 7 : List Nat).length ∧
     psiTOTOut = 0 :: psiSectionsOut psiTOTData.Sections ++
       List.replicate ((List.replicate 12 7 : List Nat).length -
         (1 + (psiSectionsOut psiTOTData.Sections).length)) 0xff) :=
  ⟨(PSIData_Serialise_spec { PointerField := 1, Sections := [] }
      (List.replicate 12 7)).1 (by decide),
   (PSIData_Serialise_spec psiTOTData (List.replicate 12 7)).2 12 psiTOTOut
      (by decide)⟩

end Astits












